import Mathlib

/-!
# Verification of the SkillGate runtime gateway against its specification

Shallow embedding of the SkillGate runtime authorization gateway:
the canonical-JSON signing primitive (`skillgate/core/signer/canonical.py`,
`engine.py`), the `run` / `gateway check` / `gateway scan-output` CLI
pipelines (`skillgate/cli/commands/run.py`, `gateway.py`), and the lineage
risk analytics consumed by `dag risk` (`skillgate/cli/commands/dag.py`).

Components of `skillgate.core.gateway` that are not part of the source tree
(scope-token verification, the output-poisoning guard, lineage analytics)
are modelled from the specification; their doc comments say so explicitly.
-/

namespace Skillgate

/-! ## JSON values

Model of the Python values fed to `canonical_json` (`canonical.py`):
`None`, booleans, integers, strings, lists and dicts.  Dicts are modelled
as association lists of entries; Python dicts never hold duplicate keys,
so theorems that need it assume the key list is duplicate-free. -/

inductive Json where
  | null : Json
  | bool : Bool → Json
  | int : Int → Json
  | str : String → Json
  | arr : List Json → Json
  | obj : List (String × Json) → Json
deriving Repr, BEq, Inhabited

/-- Code-point lexicographic comparison of character lists: this is exactly
how Python compares `str` values, hence the order `sort_keys=True` uses. -/
def lexLeb : List Char → List Char → Bool
  | [], _ => true
  | (_ :: _), [] => false
  | x :: xs, y :: ys =>
    if x.toNat < y.toNat then true
    else if y.toNat < x.toNat then false
    else lexLeb xs ys

/-- Python string `<=` on the underlying code points. -/
def strLeb (a b : String) : Bool :=
  lexLeb a.data b.data

/-- Decimal digits of a natural number (fuel-driven, fuel `n + 1` suffices). -/
def natDigitsAux : Nat → Nat → List Char
  | 0, _ => []
  | fuel + 1, n =>
    if n < 10 then [Char.ofNat (48 + n)]
    else natDigitsAux fuel (n / 10) ++ [Char.ofNat (48 + n % 10)]

/-- Decimal rendering of a natural number. -/
def natToStr (n : Nat) : String :=
  String.mk (natDigitsAux (n + 1) n)

/-- Python `repr` of an `int`: decimal digits, `-` prefix when negative.
This is what `json.dumps` emits for integers. -/
def intToStr : Int → String
  | .ofNat n => natToStr n
  | .negSucc n => "-" ++ natToStr (n + 1)

/-- Lowercase hex digit for a value below 16, as `"%x"` formatting uses. -/
def hexDigit (n : Nat) : Char :=
  if n < 10 then Char.ofNat (n + 48) else Char.ofNat (n + 87)

/-- Four-digit lowercase hex rendering of a code unit, as in `ÿ`. -/
def hex4 (n : Nat) : String :=
  String.mk [hexDigit (n / 4096 % 16), hexDigit (n / 256 % 16),
             hexDigit (n / 16 % 16), hexDigit (n % 16)]

/-- Escape of one character under `json.dumps(..., ensure_ascii=True)`:
`"` and `\` get a backslash escape, the common control characters use their
short forms, other characters outside `0x20..0x7e` become `\uXXXX`
(astral code points become a UTF-16 surrogate pair), and printable ASCII
passes through unchanged. -/
def escChar (c : Char) : String :=
  if c = '"' then "\\\""
  else if c = '\\' then "\\\\"
  else if c = '\n' then "\\n"
  else if c = '\r' then "\\r"
  else if c = '\t' then "\\t"
  else if c.toNat = 8 then "\\b"
  else if c.toNat = 12 then "\\f"
  else if c.toNat < 32 ∨ c.toNat > 126 then
    if c.toNat < 65536 then "\\u" ++ hex4 c.toNat
    else
      "\\u" ++ hex4 (55296 + (c.toNat - 65536) / 1024) ++
      "\\u" ++ hex4 (56320 + (c.toNat - 65536) % 1024)
  else String.singleton c

/-- JSON string literal rendering with `ensure_ascii=True` escaping. -/
def encodeJsonString (s : String) : String :=
  "\"" ++ String.join (s.data.map escChar) ++ "\""

/-- Insertion of a rendered object entry into a key-sorted list, the order
being Python's `sort_keys=True` (code-point lexicographic on the key). -/
def insertPair (p : String × String) : List (String × String) → List (String × String)
  | [] => [p]
  | q :: l => if strLeb p.1 q.1 then p :: q :: l else q :: insertPair p l

/-- Key-sort of rendered object entries (insertion sort). -/
def sortPairs : List (String × String) → List (String × String)
  | [] => []
  | p :: l => insertPair p (sortPairs l)

/-- Join of rendered `key:value` entries with `","`, matching the
`separators=(",", ":")` argument of `json.dumps`. -/
def joinPairs : List (String × String) → String
  | [] => ""
  | [p] => encodeJsonString p.1 ++ ":" ++ p.2
  | p :: q :: l => encodeJsonString p.1 ++ ":" ++ p.2 ++ "," ++ joinPairs (q :: l)

mutual

/-- `canonical_json` (`canonical.py`): `json.dumps(data, sort_keys=True,
separators=(",", ":"), ensure_ascii=True)`.  Object entries are rendered,
then sorted by key, then joined; sorting keys before or after rendering
the (order-independent) values gives the same string. -/
def canonicalJson : Json → String
  | .null => "null"
  | .bool b => if b then "true" else "false"
  | .int i => intToStr i
  | .str s => encodeJsonString s
  | .arr l => "[" ++ joinArr l ++ "]"
  | .obj l => "\x7b" ++ joinPairs (sortPairs (renderEntries l)) ++ "\x7d"

/-- Comma-joined rendering of a JSON array's elements. -/
def joinArr : List Json → String
  | [] => ""
  | [x] => canonicalJson x
  | x :: y :: l => canonicalJson x ++ "," ++ joinArr (y :: l)

/-- Rendering of each object entry's value, keeping the key. -/
def renderEntries : List (String × Json) → List (String × String)
  | [] => []
  | (k, v) :: l => (k, canonicalJson v) :: renderEntries l

end

/-! ### Key-sort determinism

`sortPairs` of two permuted entry lists with duplicate-free keys is the
same list: the heart of canonical-serialization determinism (claim C4). -/

theorem char_eq_of_toNat_eq {a b : Char} (h : a.toNat = b.toNat) : a = b := by
  rw [← Char.ofNat_toNat a, ← Char.ofNat_toNat b, h]

theorem lexLeb_total (l₁ l₂ : List Char) (h : lexLeb l₁ l₂ = false) :
    lexLeb l₂ l₁ = true := by
  induction l₁ generalizing l₂ with
  | nil => simp [lexLeb] at h
  | cons a as ih =>
    cases l₂ with
    | nil => rfl
    | cons b bs =>
      simp only [lexLeb] at h ⊢
      by_cases hab : a.toNat < b.toNat
      · simp [hab] at h
      · by_cases hba : b.toNat < a.toNat
        · simp [hab, hba]
        · simp [hab, hba] at h ⊢
          exact ih bs h

theorem lexLeb_antisymm (l₁ l₂ : List Char) (h₁ : lexLeb l₁ l₂ = true)
    (h₂ : lexLeb l₂ l₁ = true) : l₁ = l₂ := by
  induction l₁ generalizing l₂ with
  | nil =>
    cases l₂ with
    | nil => rfl
    | cons b bs => simp [lexLeb] at h₂
  | cons a as ih =>
    cases l₂ with
    | nil => simp [lexLeb] at h₁
    | cons b bs =>
      simp only [lexLeb] at h₁ h₂
      by_cases hab : a.toNat < b.toNat
      · have hba : ¬ b.toNat < a.toNat := by omega
        simp [hab, hba] at h₂
      · by_cases hba : b.toNat < a.toNat
        · simp [hab, hba] at h₁
        · have hv : a = b := char_eq_of_toNat_eq (by omega)
          simp [hab, hba] at h₁ h₂
          rw [hv, ih bs h₁ h₂]

theorem lexLeb_trans (l₁ l₂ l₃ : List Char) (h₁ : lexLeb l₁ l₂ = true)
    (h₂ : lexLeb l₂ l₃ = true) : lexLeb l₁ l₃ = true := by
  induction l₁ generalizing l₂ l₃ with
  | nil => rfl
  | cons a as ih =>
    cases l₂ with
    | nil => simp [lexLeb] at h₁
    | cons b bs =>
      cases l₃ with
      | nil => simp [lexLeb] at h₂
      | cons c cs =>
        simp only [lexLeb] at h₁ h₂ ⊢
        by_cases hac : a.toNat < c.toNat
        · simp [hac]
        · by_cases hca : c.toNat < a.toNat
          · exfalso
            by_cases hab : a.toNat < b.toNat
            · by_cases hbc : b.toNat < c.toNat
              · omega
              · by_cases hcb : c.toNat < b.toNat
                · simp [hbc, hcb] at h₂
                · omega
            · by_cases hba : b.toNat < a.toNat
              · simp [hab, hba] at h₁
              · by_cases hbc : b.toNat < c.toNat
                · omega
                · by_cases hcb : c.toNat < b.toNat
                  · simp [hbc, hcb] at h₂
                  · omega
          · by_cases hab : a.toNat < b.toNat
            · exfalso
              have hbc : ¬ b.toNat < c.toNat := by omega
              have hcb : c.toNat < b.toNat := by omega
              simp [hbc, hcb] at h₂
            · by_cases hba : b.toNat < a.toNat
              · exfalso
                simp [hab, hba] at h₁
              · have hbc : ¬ b.toNat < c.toNat := by omega
                have hcb : ¬ c.toNat < b.toNat := by omega
                simp [hab, hba] at h₁
                simp [hbc, hcb] at h₂
                simp [hac, hca]
                exact ih bs cs h₁ h₂

theorem strLeb_total (a b : String) (h : strLeb a b = false) : strLeb b a = true :=
  lexLeb_total a.data b.data h

theorem strLeb_antisymm (a b : String) (h₁ : strLeb a b = true)
    (h₂ : strLeb b a = true) : a = b := by
  cases a with
  | mk da =>
    cases b with
    | mk db => exact congrArg String.mk (lexLeb_antisymm da db h₁ h₂)

theorem strLeb_trans (a b c : String) (h₁ : strLeb a b = true)
    (h₂ : strLeb b c = true) : strLeb a c = true :=
  lexLeb_trans a.data b.data c.data h₁ h₂

theorem insertPair_comm (x y : String × String) (l : List (String × String))
    (hxy : x.1 ≠ y.1) :
    insertPair x (insertPair y l) = insertPair y (insertPair x l) := by
  induction l with
  | nil =>
    by_cases h1 : strLeb x.1 y.1 = true
    · have h2 : strLeb y.1 x.1 = false := by
        cases hyx : strLeb y.1 x.1
        · rfl
        · exact absurd (strLeb_antisymm x.1 y.1 h1 hyx).symm (Ne.symm hxy)
      show insertPair x [y] = insertPair y [x]
      rw [show insertPair x [y] = x :: y :: [] from if_pos h1,
          show insertPair y [x] = x :: insertPair y [] from if_neg (by simp [h2])]
      rfl
    · have h1' : strLeb x.1 y.1 = false := by simpa using h1
      have h2 : strLeb y.1 x.1 = true := strLeb_total _ _ h1'
      show insertPair x [y] = insertPair y [x]
      rw [show insertPair x [y] = y :: insertPair x [] from if_neg h1,
          show insertPair y [x] = y :: x :: [] from if_pos h2]
      rfl
  | cons q l ih =>
    by_cases hyq : strLeb y.1 q.1 = true <;> by_cases hxq : strLeb x.1 q.1 = true
    · rw [show insertPair y (q :: l) = y :: q :: l from if_pos hyq,
          show insertPair x (q :: l) = x :: q :: l from if_pos hxq]
      by_cases hxy' : strLeb x.1 y.1 = true
      · have hyx : strLeb y.1 x.1 = false := by
          cases hh : strLeb y.1 x.1
          · rfl
          · exact absurd (strLeb_antisymm x.1 y.1 hxy' hh).symm (Ne.symm hxy)
        rw [show insertPair x (y :: q :: l) = x :: y :: q :: l from if_pos hxy',
            show insertPair y (x :: q :: l) = x :: insertPair y (q :: l) from
              if_neg (by simp [hyx]),
            show insertPair y (q :: l) = y :: q :: l from if_pos hyq]
      · have hxy'' : strLeb x.1 y.1 = false := by simpa using hxy'
        have hyx : strLeb y.1 x.1 = true := strLeb_total _ _ hxy''
        rw [show insertPair x (y :: q :: l) = y :: insertPair x (q :: l) from if_neg hxy',
            show insertPair x (q :: l) = x :: q :: l from if_pos hxq,
            show insertPair y (x :: q :: l) = y :: x :: q :: l from if_pos hyx]
    · have hxq' : strLeb x.1 q.1 = false := by simpa using hxq
      have hxy' : strLeb x.1 y.1 = false := by
        cases hh : strLeb x.1 y.1
        · rfl
        · exact absurd (strLeb_trans x.1 y.1 q.1 hh hyq) (by simp [hxq'])
      have hyx : strLeb y.1 x.1 = true := strLeb_total _ _ hxy'
      rw [show insertPair y (q :: l) = y :: q :: l from if_pos hyq,
          show insertPair x (q :: l) = q :: insertPair x l from if_neg hxq,
          show insertPair x (y :: q :: l) = y :: insertPair x (q :: l) from
            if_neg (by simp [hxy']),
          show insertPair x (q :: l) = q :: insertPair x l from if_neg hxq,
          show insertPair y (q :: insertPair x l) = y :: q :: insertPair x l from if_pos hyq]
    · have hyq' : strLeb y.1 q.1 = false := by simpa using hyq
      have hyx : strLeb y.1 x.1 = false := by
        cases hh : strLeb y.1 x.1
        · rfl
        · exact absurd (strLeb_trans y.1 x.1 q.1 hh hxq) (by simp [hyq'])
      rw [show insertPair y (q :: l) = q :: insertPair y l from if_neg hyq,
          show insertPair x (q :: l) = x :: q :: l from if_pos hxq,
          show insertPair x (q :: insertPair y l) = x :: q :: insertPair y l from if_pos hxq,
          show insertPair y (x :: q :: l) = x :: insertPair y (q :: l) from
            if_neg (by simp [hyx]),
          show insertPair y (q :: l) = q :: insertPair y l from if_neg hyq]
    · rw [show insertPair y (q :: l) = q :: insertPair y l from if_neg hyq,
          show insertPair x (q :: l) = q :: insertPair x l from if_neg hxq,
          show insertPair x (q :: insertPair y l) = q :: insertPair x (insertPair y l) from
            if_neg hxq,
          show insertPair y (q :: insertPair x l) = q :: insertPair y (insertPair x l) from
            if_neg hyq,
          ih]

theorem sortPairs_eq_of_perm {l₁ l₂ : List (String × String)}
    (hp : l₁.Perm l₂) (hnd : (l₁.map Prod.fst).Nodup) :
    sortPairs l₁ = sortPairs l₂ := by
  induction hp with
  | nil => rfl
  | cons x _ ih =>
    simp only [List.map, List.nodup_cons] at hnd
    simp only [sortPairs, ih hnd.2]
  | swap x y l =>
    have hxy : y.1 ≠ x.1 := by
      simp only [List.map, List.nodup_cons, List.mem_cons, not_or] at hnd
      exact hnd.1.1
    simp only [sortPairs]
    exact insertPair_comm y x (sortPairs l) hxy
  | trans h₁₂ _ ih₁ ih₂ =>
    have hnd₂ := (h₁₂.map Prod.fst).nodup_iff.mp hnd
    exact (ih₁ hnd).trans (ih₂ hnd₂)

theorem renderEntries_eq_map (l : List (String × Json)) :
    renderEntries l = l.map (fun p => (p.1, canonicalJson p.2)) := by
  induction l with
  | nil => rfl
  | cons p l ih => cases p; simp [renderEntries, ih]

/-! ## SHA-256 over byte lists

Executable model of the digest used by `hash_canonical` (`canonical.py`:
`hashlib.sha256(canonical.encode("utf-8")).hexdigest()`).  32-bit words
are naturals reduced mod `2^32`; bitwise operations recurse on an explicit
32-step fuel so the kernel can evaluate them. -/

/-- UTF-8 encoding of one scalar value, as `str.encode("utf-8")` emits. -/
def utf8Char (c : Char) : List Nat :=
  let n := c.toNat
  if n < 128 then [n]
  else if n < 2048 then [192 + n / 64, 128 + n % 64]
  else if n < 65536 then [224 + n / 4096, 128 + n / 64 % 64, 128 + n % 64]
  else [240 + n / 262144, 128 + n / 4096 % 64, 128 + n / 64 % 64, 128 + n % 64]

/-- UTF-8 encoding of a string. -/
def utf8Encode (s : String) : List Nat :=
  s.data.flatMap utf8Char

/-- Bitwise xor on `fuel` low bits. -/
def bitXorAux : Nat → Nat → Nat → Nat
  | 0, _, _ => 0
  | fuel + 1, a, b => (if a % 2 + b % 2 = 1 then 1 else 0) + 2 * bitXorAux fuel (a / 2) (b / 2)

/-- Bitwise and on `fuel` low bits. -/
def bitAndAux : Nat → Nat → Nat → Nat
  | 0, _, _ => 0
  | fuel + 1, a, b => (if a % 2 = 1 ∧ b % 2 = 1 then 1 else 0) + 2 * bitAndAux fuel (a / 2) (b / 2)

def xor32 (a b : Nat) : Nat := bitXorAux 32 a b
def and32 (a b : Nat) : Nat := bitAndAux 32 a b
def not32 (a : Nat) : Nat := 4294967295 - a % 4294967296
def add32 (a b : Nat) : Nat := (a + b) % 4294967296

/-- Right rotation of a 32-bit word. -/
def rotr32 (n x : Nat) : Nat :=
  (x / 2 ^ n + x % 2 ^ n * 2 ^ (32 - n)) % 4294967296

/-- Right shift of a 32-bit word. -/
def shr32 (n x : Nat) : Nat := x / 2 ^ n

/-- SHA-256 round constants. -/
def shaK : List Nat :=
  [1116352408, 1899447441, 3049323471, 3921009573, 961987163, 1508970993, 2453635748, 2870763221,
   3624381080, 310598401, 607225278, 1426881987, 1925078388, 2162078206, 2614888103, 3248222580,
   3835390401, 4022224774, 264347078, 604807628, 770255983, 1249150122, 1555081692, 1996064986,
   2554220882, 2821834349, 2952996808, 3210313671, 3336571891, 3584528711, 113926993, 338241895,
   666307205, 773529912, 1294757372, 1396182291, 1695183700, 1986661051, 2177026350, 2456956037,
   2730485921, 2820302411, 3259730800, 3345764771, 3516065817, 3600352804, 4094571909, 275423344,
   430227734, 506948616, 659060556, 883997877, 958139571, 1322822218, 1537002063, 1747873779,
   1955562222, 2024104815, 2227730452, 2361852424, 2428436474, 2756734187, 3204031479, 3329325298]

/-- SHA-256 initial hash state. -/
def shaH0 : List Nat :=
  [1779033703, 3144134277, 1013904242, 2773480762, 1359893119, 2600822924, 528734635, 1541459225]

/-- Message padding: `0x80`, zeros to 56 mod 64, then the bit length
as eight big-endian bytes. -/
def shaPad (msg : List Nat) : List Nat :=
  let len := msg.length
  let zeros := (119 - len % 64) % 64
  let bits := len * 8
  msg ++ [128] ++ List.replicate zeros 0 ++
    [bits / 72057594037927936 % 256, bits / 281474976710656 % 256,
     bits / 1099511627776 % 256, bits / 4294967296 % 256,
     bits / 16777216 % 256, bits / 65536 % 256, bits / 256 % 256, bits % 256]

/-- Big-endian packing of bytes into 32-bit words. -/
def bytesToWords : List Nat → List Nat
  | b0 :: b1 :: b2 :: b3 :: rest =>
    (b0 * 16777216 + b1 * 65536 + b2 * 256 + b3) :: bytesToWords rest
  | _ => []

/-- Split a word list into 16-word blocks. -/
def toBlocksAux : Nat → List Nat → List (List Nat)
  | 0, _ => []
  | _, [] => []
  | fuel + 1, w :: rest => (w :: rest.take 15) :: toBlocksAux fuel (rest.drop 15)

def toBlocks (ws : List Nat) : List (List Nat) :=
  toBlocksAux ws.length ws

def smallSigma0 (x : Nat) : Nat := xor32 (rotr32 7 x) (xor32 (rotr32 18 x) (shr32 3 x))
def smallSigma1 (x : Nat) : Nat := xor32 (rotr32 17 x) (xor32 (rotr32 19 x) (shr32 10 x))
def bigSigma0 (x : Nat) : Nat := xor32 (rotr32 2 x) (xor32 (rotr32 13 x) (rotr32 22 x))
def bigSigma1 (x : Nat) : Nat := xor32 (rotr32 6 x) (xor32 (rotr32 11 x) (rotr32 25 x))
def shaCh (x y z : Nat) : Nat := xor32 (and32 x y) (and32 (not32 x) z)
def shaMaj (x y z : Nat) : Nat := xor32 (and32 x y) (xor32 (and32 x z) (and32 y z))

/-- Message-schedule extension from 16 to 64 words. -/
def shaExtend : Nat → List Nat → List Nat
  | 0, ws => ws
  | fuel + 1, ws =>
    let t := ws.length
    let w := add32 (smallSigma1 (ws.getD (t - 2) 0))
      (add32 (ws.getD (t - 7) 0) (add32 (smallSigma0 (ws.getD (t - 15) 0)) (ws.getD (t - 16) 0)))
    shaExtend fuel (ws ++ [w])

/-- One compression round. -/
def shaRound (st : List Nat) (kw : Nat × Nat) : List Nat :=
  match st with
  | [a, b, c, d, e, f, g, h] =>
    let t1 := add32 h (add32 (bigSigma1 e) (add32 (shaCh e f g) (add32 kw.1 kw.2)))
    let t2 := add32 (bigSigma0 a) (shaMaj a b c)
    [add32 t1 t2, a, b, c, add32 d t1, e, f, g]
  | st => st

/-- Compression of one 16-word block into the running state. -/
def shaCompress (st : List Nat) (block : List Nat) : List Nat :=
  let ws := shaExtend 48 block
  let out := (shaK.zip ws).foldl shaRound st
  (st.zip out).map fun p => add32 p.1 p.2

/-- SHA-256 digest of a byte list, as 32 bytes. -/
def sha256 (msg : List Nat) : List Nat :=
  let st := ((toBlocks (bytesToWords (shaPad msg))).foldl shaCompress shaH0)
  st.flatMap fun w => [w / 16777216 % 256, w / 65536 % 256, w / 256 % 256, w % 256]

/-- Lowercase hex rendering of a byte list, as `bytes.hex()` /
`hexdigest()` produce. -/
def bytesToHex (bs : List Nat) : String :=
  String.mk (bs.flatMap fun b => [hexDigit (b / 16), hexDigit (b % 16)])

/-- `hash_canonical` (`canonical.py`): SHA-256 hex digest of the canonical
JSON serialization, encoded as UTF-8. -/
def hashCanonical (data : Json) : String :=
  bytesToHex (sha256 (utf8Encode (canonicalJson data)))

/-! ## The signing engine (`engine.py`)

`verify_report` is embedded over a report modelled as a JSON object's
entry list.  The Ed25519 primitive itself (`nacl.signing.VerifyKey.verify`)
is a parameter `ed : message bytes → signature bytes → key bytes → Bool`:
every theorem about `verifyReport` is stated for an arbitrary verifier, so
nothing about the curve arithmetic is assumed. -/

/-- `dict.get` on a JSON object's entries (first match; Python dicts have
no duplicate keys). -/
def lookupJ (k : String) : List (String × Json) → Option Json
  | [] => none
  | (k', v) :: rest => if k' = k then some v else lookupJ k rest

/-- `build_signing_scope` (`canonical.py`): every top-level entry except
`attestation`. -/
def buildSigningScope (report : List (String × Json)) : List (String × Json) :=
  report.filter fun p => !(decide (p.1 = "attestation"))

/-- The digest `verify_report` recomputes from the received payload. -/
def recomputedHash (report : List (String × Json)) : String :=
  hashCanonical (Json.obj (buildSigningScope report))

/-- Failure modes of `verify_report`.  The first six correspond to the
`SigningError` messages raised in `engine.py` / `keys.py`; `typeError` and
`signatureSizeError` model the uncaught `TypeError` / `ValueError` Python
would raise for a non-string field or a non-64-byte signature. -/
inductive SignErr where
  | noAttestation
  | missingFields
  | digestMismatch
  | malformedKey
  | invalidSignatureHex
  | badSignature
  | typeError
  | signatureSizeError
deriving Repr, DecidableEq

/-- The `required_fields` presence check of `verify_report`. -/
def attHasRequiredFields (att : List (String × Json)) : Bool :=
  (lookupJ "report_hash" att).isSome && (lookupJ "public_key" att).isSome &&
    (lookupJ "signature" att).isSome && (lookupJ "timestamp" att).isSome

def isHexDigitB (c : Char) : Bool :=
  decide ((48 ≤ c.toNat ∧ c.toNat ≤ 57) ∨ (97 ≤ c.toNat ∧ c.toNat ≤ 102) ∨
    (65 ≤ c.toNat ∧ c.toNat ≤ 70))

def hexVal (c : Char) : Nat :=
  if c.toNat ≤ 57 then c.toNat - 48
  else if 97 ≤ c.toNat then c.toNat - 87
  else c.toNat - 55

/-- `bytes.fromhex`: pairs of hex digits, ASCII spaces allowed between
bytes; `none` models the `ValueError` on malformed input. -/
def hexDecodePairs : List Char → Option (List Nat)
  | [] => some []
  | ' ' :: rest => hexDecodePairs rest
  | c1 :: c2 :: rest =>
    if isHexDigitB c1 && isHexDigitB c2 then
      (hexDecodePairs rest).map fun bs => (hexVal c1 * 16 + hexVal c2) :: bs
    else none
  | [_] => none

/-- `public_key_from_hex` (`keys.py`): hex decode plus the 32-byte length
check; both failure paths raise a `SigningError`. -/
def publicKeyFromHex (s : String) : Except SignErr (List Nat) :=
  match hexDecodePairs s.data with
  | none => .error .malformedKey
  | some bs => if bs.length = 32 then .ok bs else .error .malformedKey

/-- `verify_report` (`engine.py`): attestation presence, required fields,
digest recomputation and comparison, key decode, signature decode, then
Ed25519 verification of the digest string's UTF-8 bytes.  The digest
comparison happens strictly before any use of `ed`. -/
def verifyReport (ed : List Nat → List Nat → List Nat → Bool)
    (report : List (String × Json)) : Except SignErr Bool :=
  match lookupJ "attestation" report with
  | some (Json.obj att) =>
    if att.isEmpty then .error .noAttestation
    else if !(attHasRequiredFields att) then .error .missingFields
    else
      match lookupJ "report_hash" att with
      | some (Json.str rh) =>
        if rh = recomputedHash report then
          match lookupJ "public_key" att with
          | some (Json.str pk) =>
            match publicKeyFromHex pk with
            | .error e => .error e
            | .ok pkBytes =>
              match lookupJ "signature" att with
              | some (Json.str sg) =>
                match hexDecodePairs sg.data with
                | none => .error .invalidSignatureHex
                | some sigBytes =>
                  if sigBytes.length = 64 then
                    if ed (utf8Encode (recomputedHash report)) sigBytes pkBytes then .ok true
                    else .error .badSignature
                  else .error .signatureSizeError
              | some _ => .error .typeError
              | none => .error .missingFields
          | some _ => .error .typeError
          | none => .error .missingFields
        else .error .digestMismatch
      | some _ => .error .digestMismatch
      | none => .error .missingFields
  | some _ => .error .noAttestation
  | none => .error .noAttestation

/-! ## Runtime gateway pipeline (`run.py`, `gateway.py`)

Pure embedding of `run_command`, `gateway_check_command` and
`gateway_scan_output_command`.  The collaborator checks the CLI consumes
(`run_runtime_prechecks`, `BomGate.check`, `verify_approval_file`,
`evaluate_runtime_reputation`, `ToolOutputGuard.scan`, the sandbox
executor) live in `skillgate.core.gateway`, which the CLI imports; the
spec treats them as pure decision oracles, so their results are inputs of
the model and the control flow around them is embedded from the CLI
source.  A `typer.Exit` before `init_session` is `RunResult.noSession`;
everything after session creation is a `SessionResult`. -/

inductive RuntimeEnvironment where
  | dev | ci | prod | strict
deriving Repr, DecidableEq

/-- `requires_provenance` guard: `env in {CI, PROD, STRICT}`. -/
def requiresProvenance : RuntimeEnvironment → Bool
  | .dev => false
  | _ => true

/-- One appended `PhaseDecision`, with the string fields exactly as the
CLI passes them to `append_signed_decision`. -/
structure Decision where
  phase : String
  outcome : String
  code : String
  severity : String
  reason : String
  metadata : List (String × Json)
deriving Repr

structure LineageEdge where
  parentSessionId : String
  childSessionId : String
  tool : String
  decision : String
deriving Repr, DecidableEq

/-- Result of `run_runtime_prechecks` (decision oracle). -/
structure PrecheckResult where
  allowed : Bool
  code : String
  severity : String
  reason : String
  commandClasses : List String

/-- Result of `BomGate.check` (decision oracle). -/
structure BomDecision where
  allowed : Bool
  code : String
  reason : String
  warning : Option String

/-- Result of `verify_approval_file` (decision oracle). -/
structure ApprovalResult where
  allowed : Bool
  code : String
  reason : String
  reviewerCount : Int

/-- Result of `evaluate_runtime_reputation` (decision oracle);
`confidence` and the redacted hash are recorded opaquely. -/
structure ReputationResult where
  allowed : Bool
  code : String
  reason : String
  verdict : String
  confidence : Json
  redactedBundleHash : Json

/-- Outcome of `subprocess.run` on the sandboxed command: Python raises
`TimeoutExpired` (after killing the child) or `OSError`, or completes. -/
inductive ExecOutcome where
  | timeout (seconds : Int)
  | osError (message : String)
  | completed (returncode : Int) (stdout stderr : String)

inductive TopOutcome where
  | pass | annotate | sanitize | block
deriving Repr, DecidableEq

/-- `scan_result.outcome.lower()` as recorded in the decision. -/
def TopOutcome.lower : TopOutcome → String
  | .pass => "pass"
  | .annotate => "annotate"
  | .sanitize => "sanitize"
  | .block => "block"

/-- Result of `ToolOutputGuard.scan` — the fields the CLI reads, which are
exactly the scan contract of spec §4.6. -/
structure ScanResult where
  outcome : TopOutcome
  ruleId : Option String
  severity : Option String
  matchedPatterns : List String
  sanitizedText : Option String

/-- Modelled from the spec: the decoded scope-token payload returned by
`verify_scope_token` (`skillgate.core.gateway`, not in the source tree).
Spec §3: a `ScopeToken` binds `parent_session`, `max_entitlement_tier`,
`allowed_tool_classes` and `issued_at`; verification returns the decoded
payload or raises — it never resolves to "no parent". -/
structure ScopePayload where
  parentSession : String
  maxEntitlementTier : String
  allowedToolClasses : List String
  issuedAt : String

/-- Python truthiness of an optional string: `None` and `""` are falsy. -/
def optFalsy : Option String → Bool
  | none => true
  | some s => s.isEmpty

/-- Python `or` on an optional string with a default (empty is falsy). -/
def pyOr (o : Option String) (dflt : String) : String :=
  match o with
  | some s => if s.isEmpty then dflt else s
  | none => dflt

/-- Whitespace characters `str.strip` removes. -/
def isPySpace (c : Char) : Bool :=
  c = ' ' ∨ c = '\t' ∨ c = '\n' ∨ c = '\r' ∨ c.toNat = 11 ∨ c.toNat = 12

/-- `str.strip()`. -/
def pyStrip (s : String) : String :=
  String.mk (((s.data.dropWhile isPySpace).reverse.dropWhile isPySpace).reverse)

/-- Digit run accepted by Python `int()`: decimal digits with single
underscores allowed between digits. -/
def pyDigitsAux : Nat → List Char → Option Nat
  | acc, [] => some acc
  | acc, '_' :: c :: rest =>
    if c.isDigit then pyDigitsAux (acc * 10 + (c.toNat - 48)) rest else none
  | _, ['_'] => none
  | acc, c :: rest =>
    if c.isDigit then pyDigitsAux (acc * 10 + (c.toNat - 48)) rest else none

def pyDigits : List Char → Option Nat
  | [] => none
  | c :: rest => if c.isDigit then pyDigitsAux (c.toNat - 48) rest else none

/-- Python `int(s)` on an already-stripped ASCII string: optional sign,
then digits; `none` models the `ValueError`. -/
def pyParseInt (s : String) : Option Int :=
  match s.data with
  | '+' :: rest => (pyDigits rest).map Int.ofNat
  | '-' :: rest => (pyDigits rest).map fun n => -(n : Int)
  | l => (pyDigits l).map Int.ofNat

/-- `_parse_nonnegative_int_env` (`run.py` / `gateway.py`): strip the raw
environment value, return 0 when empty, unparsable, zero or negative. -/
def parseNonnegativeIntEnv (raw : Option String) : Int :=
  let stripped := pyStrip (raw.getD "")
  if stripped.isEmpty then 0
  else
    match pyParseInt stripped with
    | none => 0
    | some v => if 0 < v then v else 0

/-- `VerifyKey(bytes.fromhex(key))` succeeds exactly on hex decoding to
32 bytes. -/
def decodeVerifyKeyB (s : String) : Bool :=
  match hexDecodePairs s.data with
  | some bs => decide (bs.length = 32)
  | none => false

/-- `_resolve_parent_session` (identical in `run.py` and `gateway.py`):
no token means an unscoped root session; a token without a key, with an
undecodable key, or failing verification exits with code 1 (SG-TRUST-001)
before any session exists.  The verification outcome of the missing
`verify_scope_token` is an oracle input `ver`. -/
def resolveParent (tok key : Option String) (ver : Except String ScopePayload) :
    Except Int (Option String) :=
  match tok with
  | none => .ok none
  | some t =>
    if t.isEmpty then .ok none
    else
      match key with
      | none => .error 1
      | some k =>
        if k.isEmpty then .error 1
        else if decodeVerifyKeyB k then
          match ver with
          | .error _ => .error 1
          | .ok payload => .ok (some payload.parentSession)
        else .error 1

/-- `_extract_wrapped_command`. -/
def extractWrappedCommand : List String → List String
  | [] => []
  | a :: rest => if a = "--" then rest else a :: rest

/-- All inputs of one `skillgate run` invocation: CLI options, the
relevant environment variables, and the decision-oracle results. -/
structure RunInputs where
  args : List String
  env : RuntimeEnvironment
  skillId : Option String
  skillHash : Option String
  scanAttestation : Option String
  enableTopGuard : Bool
  topOutcome : Option String
  requiredReviewers : Int
  approvalFile : Option String
  envScopeToken : Option String
  envScopePublicKey : Option String
  envApprovalReviewers : Option String
  tokenVerification : Except String ScopePayload
  sessionId : String
  sandboxBackend : String
  precheck : PrecheckResult
  bom : BomDecision
  approval : ApprovalResult
  reputation : ReputationResult
  execResult : ExecOutcome
  topScan : ScanResult

/-- Observable outcome of an invocation that did create a session.
`childTerminated` models the documented `subprocess.run` behaviour of
killing the child before raising `TimeoutExpired`. -/
structure SessionResult where
  parentSessionId : Option String
  decisions : List Decision
  lineageEdges : List LineageEdge
  finalized : Bool
  exitCode : Int
  emittedStdout : String
  emittedStderr : String
  childTerminated : Bool

inductive RunResult where
  | noSession (exitCode : Int)
  | session (r : SessionResult)

def runDecisions : RunResult → List Decision
  | .noSession _ => []
  | .session r => r.decisions

def runPhases (res : RunResult) : List String :=
  (runDecisions res).map fun d => d.phase

/-- The `complete` decision (`run.py` lines 350–358). -/
def completeDecision (rc : Int) : Decision :=
  ⟨"complete", if rc = 0 then "allow" else "warn", "SG-RT-PROC-EXIT",
    if rc = 0 then "low" else "medium",
    "Wrapped process exited with code " ++ intToStr rc ++ ".", []⟩

/-- Tail of `run_command` after the TOP guard: record `complete`,
finalize, emit output, exit with the wrapped process's code. -/
def runComplete (parent : Option String) (ds : List Decision)
    (edges : List LineageEdge) (rc : Int) (outS errS : String) : RunResult :=
  .session ⟨parent, ds ++ [completeDecision rc], edges, true, rc, outS, errS, false⟩

/-- The `tool_output` decision as `run_command` records it. -/
def toolOutputDecision (scan : ScanResult) (reason : String) : Decision :=
  ⟨"tool_output", scan.outcome.lower, pyOr scan.ruleId "SG-TOP-PASS",
    (scan.severity).getD "low", reason,
    [("matched_patterns", Json.arr (scan.matchedPatterns.map Json.str))]⟩

/-- TOP-guard stage of `run_command` (lines 320–348): block suppresses all
output and halts; sanitize replaces stdout with the sanitized text and
discards stderr; annotate/pass pass output through. -/
def runTop (I : RunInputs) (parent : Option String) (ds : List Decision)
    (edges : List LineageEdge) (rc : Int) (outS errS : String) : RunResult :=
  if I.enableTopGuard then
    let scan := I.topScan
    let ds' := ds ++ [toolOutputDecision scan "TOP guard decision on wrapped command output."]
    match scan.outcome with
    | .block => .session ⟨parent, ds', edges, true, 1, "", "", false⟩
    | .sanitize =>
      match scan.sanitizedText with
      | some t => runComplete parent ds' edges rc t ""
      | none => runComplete parent ds' edges rc outS errS
    | _ => runComplete parent ds' edges rc outS errS
  else runComplete parent ds edges rc outS errS

/-- The `execute_start` decision, recording the resolved backend and the
sandboxed exec vector (the wrapped command under the chosen backend). -/
def executeStartDecision (I : RunInputs) (wrapped : List String) : Decision :=
  ⟨"execute_start", "allow", "SG-RT-SBX-EXEC", "low",
    "Executing with sandbox backend '" ++ I.sandboxBackend ++ "'.",
    [("backend", Json.str I.sandboxBackend),
     ("command", Json.arr (wrapped.map Json.str))]⟩

/-- Execution stage of `run_command` (lines 263–318): `execute_start` is
always recorded; timeout and launch failure record a blocking `execute`
decision and halt (the timeout path kills the child first). -/
def runExec (I : RunInputs) (parent : Option String) (ds : List Decision)
    (edges : List LineageEdge) (wrapped : List String) : RunResult :=
  let ds1 := ds ++ [executeStartDecision I wrapped]
  match I.execResult with
  | .timeout t =>
    .session ⟨parent,
      ds1 ++ [⟨"execute", "block", "SG-RT-TIMEOUT", "high",
        "Wrapped command timed out after " ++ intToStr t ++ "s", []⟩],
      edges, true, 1, "", "", true⟩
  | .osError msg =>
    .session ⟨parent,
      ds1 ++ [⟨"execute", "block", "SG-RT-EXEC-001", "critical",
        "Wrapped command execution failed: " ++ msg, []⟩],
      edges, true, 2, "", "", false⟩
  | .completed rc outS errS => runTop I parent ds1 edges rc outS errS

/-- The lineage edge appended when this session itself has a parent. -/
def lineageEdgesFor (parent : Option String) (sid tool : String) : List LineageEdge :=
  match parent with
  | some p => [⟨p, sid, tool, "allow"⟩]
  | none => []

/-- Reputation stage of `run_command` (lines 221–243), then scope-token
minting and the lineage edge for scoped sessions (lines 245–261). -/
def runReputation (I : RunInputs) (parent : Option String) (ds : List Decision)
    (wrapped : List String) : RunResult :=
  let rep := I.reputation
  let repD : Decision :=
    ⟨"reputation", if rep.allowed then "allow" else "block", rep.code,
      if rep.allowed then "low" else "high", rep.reason,
      [("verdict", Json.str rep.verdict), ("confidence", rep.confidence),
       ("bundle_hash", rep.redactedBundleHash)]⟩
  let ds' := ds ++ [repD]
  if rep.allowed then
    runExec I parent ds' (lineageEdgesFor parent I.sessionId (wrapped.headD "")) wrapped
  else .session ⟨parent, ds', [], true, 1, "", "", false⟩

/-- Approval stage of `run_command` (lines 181–219): the effective quorum
is the larger of the flag and the parsed environment variable. -/
def runApproval (I : RunInputs) (parent : Option String) (ds : List Decision)
    (wrapped : List String) : RunResult :=
  let reviewersRequired : Int :=
    max I.requiredReviewers (parseNonnegativeIntEnv I.envApprovalReviewers)
  if requiresProvenance I.env ∧ 0 < reviewersRequired then
    if optFalsy I.approvalFile then
      .session ⟨parent,
        ds ++ [⟨"approval", "block", "SG-RT-APPROVAL-001", "high",
          "Approval file required but missing.", []⟩],
        [], true, 1, "", "", false⟩
    else
      let ap := I.approval
      let apD : Decision :=
        ⟨"approval", if ap.allowed then "allow" else "block", ap.code,
          if ap.allowed then "low" else "high", ap.reason,
          [("reviewer_count", Json.int ap.reviewerCount)]⟩
      if ap.allowed then runReputation I parent (ds ++ [apD]) wrapped
      else .session ⟨parent, ds ++ [apD], [], true, 1, "", "", false⟩
  else runReputation I parent ds wrapped

/-- `run_command` (`run.py`): the full wrapper pipeline.  Exits with code
3 before a session exists when no wrapped command is given; trust errors
from `_resolve_parent_session` also exit before the session. -/
def runCommand (I : RunInputs) : RunResult :=
  let wrapped := extractWrappedCommand I.args
  if wrapped.isEmpty then .noSession 3
  else
    match resolveParent I.envScopeToken I.envScopePublicKey I.tokenVerification with
    | .error c => .noSession c
    | .ok parent =>
      let pre := I.precheck
      let d1 : Decision :=
        ⟨"precheck", if pre.allowed then "allow" else "block", pre.code, pre.severity,
          pre.reason,
          [("command", Json.arr (wrapped.map Json.str)),
           ("command_classes", Json.arr (pre.commandClasses.map Json.str))]⟩
      if pre.allowed then
        if requiresProvenance I.env ∧
            (optFalsy I.skillId ∨ optFalsy I.skillHash ∨ optFalsy I.scanAttestation) then
          .session ⟨parent,
            [d1, ⟨"provenance", "block", "SG-RT-PROV-001", "high",
              "Missing required runtime provenance fields. " ++
                "Provide --skill-id, --skill-hash, and --scan-attestation.", []⟩],
            [], true, 1, "", "", false⟩
        else
          if optFalsy I.skillId then runApproval I parent [d1] wrapped
          else
            let bom := I.bom
            let bomD : Decision :=
              ⟨"bom_gate", if bom.allowed then "allow" else "block", bom.code,
                if bom.allowed then "low" else "critical", bom.reason,
                [("skill_id", Json.str (I.skillId.getD "")),
                 ("warning", match bom.warning with
                   | some w => Json.str w
                   | none => Json.null)]⟩
            if bom.allowed then runApproval I parent [d1, bomD] wrapped
            else .session ⟨parent, [d1, bomD], [], true, 1, "", "", false⟩
      else .session ⟨parent, [d1], [], true, 1, "", "", false⟩

/-- Inputs of one `skillgate gateway check` invocation. -/
structure CheckInputs where
  command : String
  env : RuntimeEnvironment
  skillId : Option String
  skillHash : Option String
  scanAttestation : Option String
  requiredReviewers : Int
  approvalFile : Option String
  envScopeToken : Option String
  envScopePublicKey : Option String
  envApprovalReviewers : Option String
  tokenVerification : Except String ScopePayload
  sessionId : String
  precheck : PrecheckResult
  bom : BomDecision
  approval : ApprovalResult
  reputation : ReputationResult

/-- `command.split(" ", 1)[0]`: the characters before the first space. -/
def firstToken (s : String) : String :=
  String.mk (s.data.takeWhile fun c => !(decide (c = ' ')))

/-- Provenance stage of `gateway_check_command` on the running
`(decisions, allowed)` accumulator. -/
def checkProvStage (I : CheckInputs) (s : List Decision × Bool) : List Decision × Bool :=
  if s.2 ∧ requiresProvenance I.env ∧
      (optFalsy I.skillId ∨ optFalsy I.skillHash ∨ optFalsy I.scanAttestation) then
    (s.1 ++ [⟨"provenance", "block", "SG-RT-PROV-001", "high",
      "Missing required runtime provenance fields. " ++
        "Provide --skill-id, --skill-hash, and --scan-attestation.", []⟩], false)
  else s

/-- BOM stage of `gateway_check_command`. -/
def checkBomStage (I : CheckInputs) (s : List Decision × Bool) : List Decision × Bool :=
  if s.2 ∧ ¬ optFalsy I.skillId then
    (s.1 ++ [⟨"bom_gate", if I.bom.allowed then "allow" else "block", I.bom.code,
      if I.bom.allowed then "low" else "critical", I.bom.reason,
      [("skill_id", Json.str (I.skillId.getD "")),
       ("warning", match I.bom.warning with
         | some w => Json.str w
         | none => Json.null)]⟩], I.bom.allowed)
  else s

/-- Approval stage of `gateway_check_command`. -/
def checkApprovalStage (I : CheckInputs) (s : List Decision × Bool) : List Decision × Bool :=
  if s.2 ∧ requiresProvenance I.env ∧
      0 < max I.requiredReviewers (parseNonnegativeIntEnv I.envApprovalReviewers) then
    if optFalsy I.approvalFile then
      (s.1 ++ [⟨"approval", "block", "SG-RT-APPROVAL-001", "high",
        "Approval file required but missing.", []⟩], false)
    else
      (s.1 ++ [⟨"approval", if I.approval.allowed then "allow" else "block",
        I.approval.code, if I.approval.allowed then "low" else "high",
        I.approval.reason,
        [("reviewer_count", Json.int I.approval.reviewerCount)]⟩], I.approval.allowed)
  else s

/-- Reputation stage of `gateway_check_command`. -/
def checkReputationStage (I : CheckInputs) (s : List Decision × Bool) :
    List Decision × Bool :=
  if s.2 then
    (s.1 ++ [⟨"reputation", if I.reputation.allowed then "allow" else "block",
      I.reputation.code, if I.reputation.allowed then "low" else "high",
      I.reputation.reason,
      [("verdict", Json.str I.reputation.verdict),
       ("confidence", I.reputation.confidence),
       ("bundle_hash", I.reputation.redactedBundleHash)]⟩], I.reputation.allowed)
  else s

/-- `gateway_check_command` (`gateway.py`): same phases as the run
pipeline but check-only — an `allowed` flag guards every later phase, all
appends are skipped after a block, a `scope_token` decision is recorded on
full success, the session is always finalized, and the exit code is 0
exactly when every recorded phase allowed. -/
def gatewayCheck (I : CheckInputs) : RunResult :=
  match resolveParent I.envScopeToken I.envScopePublicKey I.tokenVerification with
  | .error c => .noSession c
  | .ok parent =>
    let pre := I.precheck
    let d1 : Decision :=
      ⟨"precheck", if pre.allowed then "allow" else "block", pre.code, pre.severity,
        pre.reason,
        [("command", Json.str I.command),
         ("command_classes", Json.arr (pre.commandClasses.map Json.str))]⟩
    let s5 := checkReputationStage I (checkApprovalStage I (checkBomStage I
      (checkProvStage I ([d1], pre.allowed))))
    let ds6 : List Decision :=
      if s5.2 then
        s5.1 ++ [⟨"scope_token", "allow", "SG-TRUST-TOKEN-ISSUED", "low",
          "Issued scope token for native hook caller.", []⟩]
      else s5.1
    let edges : List LineageEdge :=
      if s5.2 then
        match parent with
        | some p => [⟨p, I.sessionId, firstToken I.command, "allow"⟩]
        | none => []
      else []
    .session ⟨parent, ds6, edges, true, if s5.2 then 0 else 1, "", "", false⟩

/-- Inputs of one `skillgate gateway scan-output` invocation. -/
structure ScanOutputInputs where
  env : RuntimeEnvironment
  topOutcome : Option String
  sessionId : String
  scan : ScanResult

/-- `gateway_scan_output_command` (`gateway.py` lines 267–329): one
`tool_output` decision, always finalized, exit 1 exactly on BLOCK. -/
def gatewayScanOutput (I : ScanOutputInputs) : RunResult :=
  .session ⟨none, [toolOutputDecision I.scan "Native output scan decision."], [],
    true, if I.scan.outcome = .block then 1 else 0, "", "", false⟩

/-! ### Observable accessors and invariants used by the theorems -/

def runExitCode : RunResult → Int
  | .noSession c => c
  | .session r => r.exitCode

def runStdoutOut : RunResult → String
  | .noSession _ => ""
  | .session r => r.emittedStdout

def runStderrOut : RunResult → String
  | .noSession _ => ""
  | .session r => r.emittedStderr

def runKilledChild : RunResult → Bool
  | .noSession _ => false
  | .session r => r.childTerminated

def asSession (res : RunResult) : SessionResult :=
  match res with
  | .noSession c => ⟨none, [], [], false, c, "", "", false⟩
  | .session r => r

/-- Fail-closed halting shape of one invocation's outcome: the session is
finalized, and only the very last recorded decision can be a block. -/
def BlockHaltOK : RunResult → Prop
  | .noSession _ => True
  | .session r => r.finalized = true ∧ ∀ d ∈ r.decisions.dropLast, d.outcome ≠ "block"

/-- Invariant of the check pipeline's `(decisions, allowed)` accumulator:
while allowed, nothing recorded is a block; once not allowed, only the
final decision may be a block. -/
def CheckInv (s : List Decision × Bool) : Prop :=
  (s.2 = true → ∀ d ∈ s.1, d.outcome ≠ "block") ∧
  (s.2 = false → ∀ d ∈ s.1.dropLast, d.outcome ≠ "block")

/-- Whether the run pipeline's guards let execution start: precheck
allowed, provenance satisfied, BOM allowed when checked, approval allowed
when required, reputation allowed. -/
def reachesExecute (I : RunInputs) : Bool :=
  !(extractWrappedCommand I.args).isEmpty &&
  (match resolveParent I.envScopeToken I.envScopePublicKey I.tokenVerification with
   | .ok _ => true
   | .error _ => false) &&
  I.precheck.allowed &&
  !(requiresProvenance I.env &&
    (optFalsy I.skillId || optFalsy I.skillHash || optFalsy I.scanAttestation)) &&
  (optFalsy I.skillId || I.bom.allowed) &&
  (!(requiresProvenance I.env &&
     decide (0 < max I.requiredReviewers (parseNonnegativeIntEnv I.envApprovalReviewers))) ||
   (!optFalsy I.approvalFile && I.approval.allowed)) &&
  I.reputation.allowed

/-! ### Concrete sample invocations (used to instantiate the theorems) -/

def precheckAllow : PrecheckResult := ⟨true, "SG-RT-PRE-OK", "low", "allowed", ["shell"]⟩

def precheckDeny : PrecheckResult := ⟨false, "SG-RT-PRE-001", "high", "denied", ["shell"]⟩

def bomAllow : BomDecision := ⟨true, "SG-BOM-OK", "approved", none⟩

def approvalAllow : ApprovalResult := ⟨true, "SG-APPROVAL-OK", "quorum met", 2⟩

def repAllow : ReputationResult :=
  ⟨true, "SG-REP-OK", "clean", "trusted", Json.int 1, Json.null⟩

def scanPass : ScanResult := ⟨.pass, none, none, [], none⟩

def scanSanitize : ScanResult :=
  ⟨.sanitize, some "SG-TOP-002", some "medium", ["aws_key"], some "[REDACTED]"⟩

/-- A benign `run` invocation: dev environment, no token, everything
allowed, wrapped process succeeds. -/
def WitRun : RunInputs :=
  ⟨["--", "echo", "hi"], .dev, none, none, none, true, none, 0, none,
   none, none, none, Except.error "unused", "sess-1", "direct",
   precheckAllow, bomAllow, approvalAllow, repAllow,
   .completed 0 "hello" "", scanPass⟩

/-- A benign `gateway check` invocation. -/
def WitCheck : CheckInputs :=
  ⟨"echo hi", .dev, none, none, none, 0, none, none, none, none,
   Except.error "unused", "sess-2", precheckAllow, bomAllow, approvalAllow, repAllow⟩

/-- `run` invocation presenting a scope token without a public key. -/
def WitRunBadKey : RunInputs :=
  { WitRun with envScopeToken := some "tok" }

/-- `gateway check` invocation presenting a scope token without a key. -/
def WitCheckBadKey : CheckInputs :=
  { WitCheck with envScopeToken := some "tok" }

/-- `run` invocation with a token, a well-formed key and a verification
oracle that accepts, naming `parent-1` as the issuing session. -/
def WitRunTok : RunInputs :=
  { WitRun with
      envScopeToken := some "tok",
      envScopePublicKey := some
        "0000000000000000000000000000000000000000000000000000000000000000",
      tokenVerification := Except.ok ⟨"parent-1", "team", ["shell"], "t"⟩ }

/-- `gateway check` invocation with a token and accepting verification. -/
def WitCheckTok : CheckInputs :=
  { WitCheck with
      envScopeToken := some "tok",
      envScopePublicKey := some
        "0000000000000000000000000000000000000000000000000000000000000000",
      tokenVerification := Except.ok ⟨"parent-1", "team", ["shell"], "t"⟩ }

end Skillgate

namespace Skillgate

/-- C4.  Canonical-serialization determinism: `canonical_json` renders two
object payloads whose entry lists are permutations of one another (the keys
being duplicate-free, as in any Python dict) to byte-identical strings, and
`hash_canonical` consequently gives them identical SHA-256 digests. -/
theorem canonical_json_perm_invariant
    (l₁ l₂ : List (String × Json)) (hperm : l₁.Perm l₂)
    (hnd : (l₁.map Prod.fst).Nodup) :
    canonicalJson (Json.obj l₁) = canonicalJson (Json.obj l₂) ∧
    hashCanonical (Json.obj l₁) = hashCanonical (Json.obj l₂) := by
  have hmap : (renderEntries l₁).Perm (renderEntries l₂) := by
    rw [renderEntries_eq_map, renderEntries_eq_map]
    exact hperm.map _
  have hkeys : ((renderEntries l₁).map Prod.fst).Nodup := by
    rw [renderEntries_eq_map]
    have hcomp : (l₁.map fun p => (p.1, canonicalJson p.2)).map Prod.fst =
        l₁.map Prod.fst := by
      rw [List.map_map]
      rfl
    rw [hcomp]
    exact hnd
  have hsort := sortPairs_eq_of_perm hmap hkeys
  have hc : canonicalJson (Json.obj l₁) = canonicalJson (Json.obj l₂) := by
    simp only [canonicalJson]
    rw [hsort]
  exact ⟨hc, congrArg (fun s => bytesToHex (sha256 (utf8Encode s))) hc⟩

/-- Closed instance of C4 at a concrete two-entry payload. -/
theorem canonical_json_perm_invariant_witness :
    canonicalJson (Json.obj [("b", Json.int 1), ("a", Json.str "x")]) =
      canonicalJson (Json.obj [("a", Json.str "x"), ("b", Json.int 1)]) ∧
    hashCanonical (Json.obj [("b", Json.int 1), ("a", Json.str "x")]) =
      hashCanonical (Json.obj [("a", Json.str "x"), ("b", Json.int 1)]) :=
  canonical_json_perm_invariant _ _
    (List.Perm.swap ("a", Json.str "x") ("b", Json.int 1) [])
    (by decide)

/-- C1.  Artifact tamper-evidence.  First part: for a well-formed
attestation block, `verify_report` returns `True` iff the embedded
`report_hash` equals the digest recomputed over the payload without its
attestation AND the Ed25519 signature verifies over that digest under the
embedded public key — stated for an arbitrary Ed25519 verifier `ed`.
Second part: whenever the embedded digest does not match the recomputed
one (including every malformed-attestation shape), `verify_report` raises
an error, never returns `True`, and its result does not depend on the
Ed25519 verifier at all — the digest check is logically prior to any
cryptographic verification. -/
theorem verify_report_tamper_evidence :
    (∀ (ed : List Nat → List Nat → List Nat → Bool) (report att : List (String × Json))
        (pk sg : String) (pkB sgB : List Nat),
      lookupJ "attestation" report = some (Json.obj att) →
      att.isEmpty = false →
      (lookupJ "timestamp" att).isSome = true →
      lookupJ "public_key" att = some (Json.str pk) →
      lookupJ "signature" att = some (Json.str sg) →
      hexDecodePairs pk.data = some pkB →
      pkB.length = 32 →
      hexDecodePairs sg.data = some sgB →
      sgB.length = 64 →
      (verifyReport ed report = .ok true ↔
        lookupJ "report_hash" att = some (Json.str (recomputedHash report)) ∧
        ed (utf8Encode (recomputedHash report)) sgB pkB = true)) ∧
    (∀ (ed₁ ed₂ : List Nat → List Nat → List Nat → Bool) (report : List (String × Json)),
      (¬ ∃ att, lookupJ "attestation" report = some (Json.obj att) ∧
        lookupJ "report_hash" att = some (Json.str (recomputedHash report))) →
      verifyReport ed₁ report = verifyReport ed₂ report ∧
      ∃ e, verifyReport ed₁ report = .error e) := by
  constructor
  · intro ed report att pk sg pkB sgB hA hne hts hpk hsg hpkd hpkl hsgd hsgl
    have hfields : attHasRequiredFields att = (lookupJ "report_hash" att).isSome := by
      simp [attHasRequiredFields, hpk, hsg, hts]
    cases hrh : lookupJ "report_hash" att with
    | none => simp [verifyReport, hA, hne, hfields, hrh]
    | some v =>
      cases v with
      | str s =>
        by_cases hs : s = recomputedHash report
        · subst hs
          simp only [verifyReport, hA, hne, hfields, hrh, hpk, hsg, hpkd, hsgd,
            publicKeyFromHex, hpkl, Option.isSome_some, Bool.not_true, Bool.false_eq_true,
            if_false, if_true, Option.map_some, hsgl]
          cases hed : ed (utf8Encode (recomputedHash report)) sgB pkB <;>
            simp [hed, hsgl, hpkl]
        · simp [verifyReport, hA, hne, hfields, hrh, hs]
      | null => simp [verifyReport, hA, hne, hfields, hrh]
      | bool b => simp [verifyReport, hA, hne, hfields, hrh]
      | int i => simp [verifyReport, hA, hne, hfields, hrh]
      | arr a => simp [verifyReport, hA, hne, hfields, hrh]
      | obj o => simp [verifyReport, hA, hne, hfields, hrh]
  · intro ed₁ ed₂ report hmis
    cases hA : lookupJ "attestation" report with
    | none =>
      exact ⟨by simp [verifyReport, hA], SignErr.noAttestation, by simp [verifyReport, hA]⟩
    | some v =>
      cases v with
      | obj att =>
        by_cases hne : att.isEmpty = true
        · exact ⟨by simp [verifyReport, hA, hne], SignErr.noAttestation,
            by simp [verifyReport, hA, hne]⟩
        · have hne' : att.isEmpty = false := by simpa using hne
          by_cases hf : attHasRequiredFields att = true
          · cases hrh : lookupJ "report_hash" att with
            | none =>
              exfalso
              simp [attHasRequiredFields, hrh] at hf
            | some v' =>
              cases v' with
              | str s =>
                by_cases hs : s = recomputedHash report
                · exact absurd ⟨att, hA, by rw [hrh, hs]⟩ hmis
                · exact ⟨by simp [verifyReport, hA, hne', hf, hrh, hs],
                    SignErr.digestMismatch, by simp [verifyReport, hA, hne', hf, hrh, hs]⟩
              | null =>
                exact ⟨by simp [verifyReport, hA, hne', hf, hrh],
                  SignErr.digestMismatch, by simp [verifyReport, hA, hne', hf, hrh]⟩
              | bool b =>
                exact ⟨by simp [verifyReport, hA, hne', hf, hrh],
                  SignErr.digestMismatch, by simp [verifyReport, hA, hne', hf, hrh]⟩
              | int i =>
                exact ⟨by simp [verifyReport, hA, hne', hf, hrh],
                  SignErr.digestMismatch, by simp [verifyReport, hA, hne', hf, hrh]⟩
              | arr a =>
                exact ⟨by simp [verifyReport, hA, hne', hf, hrh],
                  SignErr.digestMismatch, by simp [verifyReport, hA, hne', hf, hrh]⟩
              | obj o =>
                exact ⟨by simp [verifyReport, hA, hne', hf, hrh],
                  SignErr.digestMismatch, by simp [verifyReport, hA, hne', hf, hrh]⟩
          · have hf' : attHasRequiredFields att = false := by simpa using hf
            exact ⟨by simp [verifyReport, hA, hne', hf'],
              SignErr.missingFields, by simp [verifyReport, hA, hne', hf']⟩
      | null => exact ⟨by simp [verifyReport, hA], SignErr.noAttestation,
          by simp [verifyReport, hA]⟩
      | bool b => exact ⟨by simp [verifyReport, hA], SignErr.noAttestation,
          by simp [verifyReport, hA]⟩
      | int i => exact ⟨by simp [verifyReport, hA], SignErr.noAttestation,
          by simp [verifyReport, hA]⟩
      | str s => exact ⟨by simp [verifyReport, hA], SignErr.noAttestation,
          by simp [verifyReport, hA]⟩
      | arr a => exact ⟨by simp [verifyReport, hA], SignErr.noAttestation,
          by simp [verifyReport, hA]⟩

/-- Sample well-formed attestation block (all-zero key and signature). -/
def attA : List (String × Json) :=
  [("report_hash", Json.str "h"),
   ("public_key", Json.str
     "0000000000000000000000000000000000000000000000000000000000000000"),
   ("signature", Json.str
     "00000000000000000000000000000000000000000000000000000000000000000000000000000000000000000000000000000000000000000000000000000000"),
   ("timestamp", Json.str "t")]

/-- Sample report carrying `attA`. -/
def reportA : List (String × Json) :=
  [("data", Json.int 1), ("attestation", Json.obj attA)]

/-- Sample report whose embedded `report_hash` is not even a string, so
the recomputed digest can never match it. -/
def reportB : List (String × Json) :=
  [("x", Json.int 1), ("attestation", Json.obj [("report_hash", Json.int 5)])]

/-- Closed instance of C1: both parts applied at concrete reports. -/
theorem verify_report_tamper_evidence_witness :
    (lookupJ "attestation" reportA = some (Json.obj attA) ∧
     attA.isEmpty = false ∧
     (lookupJ "timestamp" attA).isSome = true ∧
     lookupJ "public_key" attA = some (Json.str
       "0000000000000000000000000000000000000000000000000000000000000000") ∧
     lookupJ "signature" attA = some (Json.str
       "00000000000000000000000000000000000000000000000000000000000000000000000000000000000000000000000000000000000000000000000000000000") ∧
     (verifyReport (fun _ _ _ => true) reportA = .ok true ↔
       lookupJ "report_hash" attA = some (Json.str (recomputedHash reportA)) ∧
       (fun (_ _ _ : List Nat) => true) (utf8Encode (recomputedHash reportA))
         (List.replicate 64 0) (List.replicate 32 0) = true)) ∧
    ((¬ ∃ att, lookupJ "attestation" reportB = some (Json.obj att) ∧
        lookupJ "report_hash" att = some (Json.str (recomputedHash reportB))) ∧
     verifyReport (fun _ _ _ => true) reportB = verifyReport (fun _ _ _ => false) reportB ∧
     ∃ e, verifyReport (fun _ _ _ => true) reportB = .error e) := by
  have hA : lookupJ "attestation" reportA = some (Json.obj attA) := rfl
  have hne : attA.isEmpty = false := rfl
  have hts : (lookupJ "timestamp" attA).isSome = true := rfl
  have hpk : lookupJ "public_key" attA = some (Json.str
      "0000000000000000000000000000000000000000000000000000000000000000") := rfl
  have hsg : lookupJ "signature" attA = some (Json.str
      "00000000000000000000000000000000000000000000000000000000000000000000000000000000000000000000000000000000000000000000000000000000") := rfl
  have hpkd : hexDecodePairs
      ("0000000000000000000000000000000000000000000000000000000000000000" : String).data =
      some (List.replicate 32 0) := by decide
  have hsgd : hexDecodePairs
      ("00000000000000000000000000000000000000000000000000000000000000000000000000000000000000000000000000000000000000000000000000000000" : String).data =
      some (List.replicate 64 0) := by decide
  have hmis : ¬ ∃ att, lookupJ "attestation" reportB = some (Json.obj att) ∧
      lookupJ "report_hash" att = some (Json.str (recomputedHash reportB)) := by
    rintro ⟨att, hA', hrh⟩
    rw [show lookupJ "attestation" reportB =
      some (Json.obj [("report_hash", Json.int 5)]) from rfl] at hA'
    have hatt : att = [("report_hash", Json.int 5)] := by
      injection hA' with h
      injection h with h2
      exact h2.symm
    subst hatt
    rw [show lookupJ "report_hash" [("report_hash", Json.int 5)] =
      some (Json.int 5) from rfl] at hrh
    exact Json.noConfusion (Option.some.inj hrh)
  exact ⟨⟨hA, hne, hts, hpk, hsg,
      verify_report_tamper_evidence.1 (fun _ _ _ => true) reportA attA _ _ _ _
        hA hne hts hpk hsg hpkd (by decide) hsgd (by decide)⟩,
    hmis, verify_report_tamper_evidence.2 (fun _ _ _ => true) (fun _ _ _ => false)
      reportB hmis⟩

end Skillgate


namespace Skillgate

theorem append_nonblock {ds : List Decision} {d : Decision}
    (h : ∀ x ∈ ds, x.outcome ≠ "block") (hd : d.outcome ≠ "block") :
    ∀ x ∈ ds ++ [d], x.outcome ≠ "block" := by
  intro x hx
  rcases List.mem_append.mp hx with h1 | h1
  · exact h x h1
  · rw [List.mem_singleton.mp h1]
    exact hd

theorem dropLast_concat_decisions (ds : List Decision) (d : Decision) :
    (ds ++ [d]).dropLast = ds := by
  simp

theorem ite_allow_ne_block (b : Bool) (hb : b = true) (y : String) :
    (if b = true then "allow" else y) ≠ "block" := by
  subst hb
  simp

theorem runComplete_blockHalt (parent : Option String) (ds : List Decision)
    (edges : List LineageEdge) (rc : Int) (outS errS : String)
    (h : ∀ d ∈ ds, d.outcome ≠ "block") :
    BlockHaltOK (runComplete parent ds edges rc outS errS) := by
  refine ⟨rfl, ?_⟩
  show ∀ d ∈ (ds ++ [completeDecision rc]).dropLast, d.outcome ≠ "block"
  rw [dropLast_concat_decisions]
  exact h

theorem toolOutputDecision_outcome (scan : ScanResult) (reason : String) :
    (toolOutputDecision scan reason).outcome = scan.outcome.lower := rfl

theorem runTop_blockHalt (I : RunInputs) (parent : Option String) (ds : List Decision)
    (edges : List LineageEdge) (rc : Int) (outS errS : String)
    (h : ∀ d ∈ ds, d.outcome ≠ "block") :
    BlockHaltOK (runTop I parent ds edges rc outS errS) := by
  cases hg : I.enableTopGuard with
  | false =>
    simp only [runTop, hg, Bool.false_eq_true, if_false]
    exact runComplete_blockHalt _ _ _ _ _ _ h
  | true =>
    cases hsc : I.topScan.outcome with
    | block =>
      simp only [runTop, hg, hsc, if_true]
      refine ⟨rfl, ?_⟩
      show ∀ d ∈ ((ds ++ [toolOutputDecision I.topScan
        "TOP guard decision on wrapped command output."]).dropLast), d.outcome ≠ "block"
      rw [dropLast_concat_decisions]
      exact h
    | sanitize =>
      have htd : (toolOutputDecision I.topScan
          "TOP guard decision on wrapped command output.").outcome ≠ "block" := by
        rw [toolOutputDecision_outcome, hsc]
        decide
      cases hst : I.topScan.sanitizedText with
      | some t =>
        simp only [runTop, hg, hsc, hst, if_true]
        exact runComplete_blockHalt _ _ _ _ _ _ (append_nonblock h htd)
      | none =>
        simp only [runTop, hg, hsc, hst, if_true]
        exact runComplete_blockHalt _ _ _ _ _ _ (append_nonblock h htd)
    | pass =>
      have htd : (toolOutputDecision I.topScan
          "TOP guard decision on wrapped command output.").outcome ≠ "block" := by
        rw [toolOutputDecision_outcome, hsc]
        decide
      simp only [runTop, hg, hsc, if_true]
      exact runComplete_blockHalt _ _ _ _ _ _ (append_nonblock h htd)
    | annotate =>
      have htd : (toolOutputDecision I.topScan
          "TOP guard decision on wrapped command output.").outcome ≠ "block" := by
        rw [toolOutputDecision_outcome, hsc]
        decide
      simp only [runTop, hg, hsc, if_true]
      exact runComplete_blockHalt _ _ _ _ _ _ (append_nonblock h htd)

theorem runExec_blockHalt (I : RunInputs) (parent : Option String) (ds : List Decision)
    (edges : List LineageEdge) (wrapped : List String)
    (h : ∀ d ∈ ds, d.outcome ≠ "block") :
    BlockHaltOK (runExec I parent ds edges wrapped) := by
  have h1 : ∀ x ∈ ds ++ [(⟨"execute_start", "allow", "SG-RT-SBX-EXEC", "low",
      "Executing with sandbox backend '" ++ I.sandboxBackend ++ "'.",
      [("backend", Json.str I.sandboxBackend),
       ("command", Json.arr (wrapped.map Json.str))]⟩ : Decision)],
      x.outcome ≠ "block" :=
    append_nonblock h (show ("allow" : String) ≠ "block" by decide)
  cases hex : I.execResult with
  | timeout t =>
    simp only [runExec, hex]
    refine ⟨rfl, ?_⟩
    intro d hd
    rw [dropLast_concat_decisions] at hd
    exact h1 d hd
  | osError msg =>
    simp only [runExec, hex]
    refine ⟨rfl, ?_⟩
    intro d hd
    rw [dropLast_concat_decisions] at hd
    exact h1 d hd
  | completed rc outS errS =>
    simp only [runExec, hex]
    exact runTop_blockHalt _ _ _ _ _ _ _ h1

theorem runReputation_blockHalt (I : RunInputs) (parent : Option String)
    (ds : List Decision) (wrapped : List String)
    (h : ∀ d ∈ ds, d.outcome ≠ "block") :
    BlockHaltOK (runReputation I parent ds wrapped) := by
  cases hrep : I.reputation.allowed with
  | true =>
    simp only [runReputation, hrep, if_true]
    exact runExec_blockHalt _ _ _ _ _
      (append_nonblock h (show ("allow" : String) ≠ "block" by decide))
  | false =>
    simp only [runReputation, hrep, Bool.false_eq_true, if_false]
    refine ⟨rfl, ?_⟩
    intro d hd
    rw [dropLast_concat_decisions] at hd
    exact h d hd

theorem runApproval_blockHalt (I : RunInputs) (parent : Option String)
    (ds : List Decision) (wrapped : List String)
    (h : ∀ d ∈ ds, d.outcome ≠ "block") :
    BlockHaltOK (runApproval I parent ds wrapped) := by
  simp only [runApproval]
  split
  · split
    · refine ⟨rfl, ?_⟩
      intro d hd
      rw [dropLast_concat_decisions] at hd
      exact h d hd
    · cases hap : I.approval.allowed with
      | true =>
        simp only [hap, if_true]
        exact runReputation_blockHalt _ _ _ _
          (append_nonblock h (show ("allow" : String) ≠ "block" by decide))
      | false =>
        simp only [hap, Bool.false_eq_true, if_false]
        refine ⟨rfl, ?_⟩
        intro d hd
        rw [dropLast_concat_decisions] at hd
        exact h d hd
  · exact runReputation_blockHalt _ _ _ _ h

theorem runCommand_blockHalt (I : RunInputs) : BlockHaltOK (runCommand I) := by
  simp only [runCommand]
  split
  · trivial
  · split
    · trivial
    · rename_i parent heq
      split
      · rename_i hpre
        split
        · refine ⟨rfl, ?_⟩
          intro d hd
          rcases List.mem_singleton.mp (by simpa using hd) with rfl
          exact (show ("allow" : String) ≠ "block" by decide)
        · split
          · apply runApproval_blockHalt
            intro d hd
            rcases List.mem_singleton.mp hd with rfl
            exact (show ("allow" : String) ≠ "block" by decide)
          · split
            · rename_i hbom
              apply runApproval_blockHalt
              intro d hd
              rcases List.mem_cons.mp hd with rfl | hd2
              · exact (show ("allow" : String) ≠ "block" by decide)
              · rcases List.mem_singleton.mp hd2 with rfl
                exact (show ("allow" : String) ≠ "block" by decide)
            · refine ⟨rfl, ?_⟩
              intro d hd
              rcases List.mem_singleton.mp (by simpa using hd) with rfl
              exact (show ("allow" : String) ≠ "block" by decide)
      · refine ⟨rfl, ?_⟩
        intro d hd
        simp at hd

theorem checkProvStage_inv (I : CheckInputs) (s : List Decision × Bool)
    (h : CheckInv s) : CheckInv (checkProvStage I s) := by
  simp only [checkProvStage]
  split
  · rename_i hc
    refine ⟨fun hfl => absurd hfl (by simp), fun _ => ?_⟩
    intro d hd
    rw [show ((s.1 ++ [(⟨"provenance", "block", "SG-RT-PROV-001", "high",
      "Missing required runtime provenance fields. " ++
        "Provide --skill-id, --skill-hash, and --scan-attestation.", []⟩ : Decision)],
      false) : List Decision × Bool).1 = s.1 ++ [_] from rfl,
      dropLast_concat_decisions] at hd
    exact h.1 hc.1 d hd
  · exact h

theorem checkBomStage_inv (I : CheckInputs) (s : List Decision × Bool)
    (h : CheckInv s) : CheckInv (checkBomStage I s) := by
  simp only [checkBomStage]
  split
  · rename_i hc
    constructor
    · intro hfl
      exact append_nonblock (h.1 hc.1) (ite_allow_ne_block _ hfl _)
    · intro _ d hd
      rw [show ((s.1 ++ [(⟨"bom_gate",
        if I.bom.allowed = true then "allow" else "block", I.bom.code,
        if I.bom.allowed = true then "low" else "critical", I.bom.reason,
        [("skill_id", Json.str (I.skillId.getD "")),
         ("warning", match I.bom.warning with
           | some w => Json.str w
           | none => Json.null)]⟩ : Decision)],
        I.bom.allowed) : List Decision × Bool).1 = s.1 ++ [_] from rfl,
        dropLast_concat_decisions] at hd
      exact h.1 hc.1 d hd
  · exact h

theorem checkApprovalStage_inv (I : CheckInputs) (s : List Decision × Bool)
    (h : CheckInv s) : CheckInv (checkApprovalStage I s) := by
  simp only [checkApprovalStage]
  split
  · rename_i hc
    split
    · refine ⟨fun hfl => absurd hfl (by simp), fun _ => ?_⟩
      intro d hd
      rw [show ((s.1 ++ [(⟨"approval", "block", "SG-RT-APPROVAL-001", "high",
        "Approval file required but missing.", []⟩ : Decision)], false) :
        List Decision × Bool).1 = s.1 ++ [_] from rfl,
        dropLast_concat_decisions] at hd
      exact h.1 hc.1 d hd
    · constructor
      · intro hfl
        exact append_nonblock (h.1 hc.1) (ite_allow_ne_block _ hfl _)
      · intro _ d hd
        rw [show ((s.1 ++ [(⟨"approval",
          if I.approval.allowed = true then "allow" else "block", I.approval.code,
          if I.approval.allowed = true then "low" else "high", I.approval.reason,
          [("reviewer_count", Json.int I.approval.reviewerCount)]⟩ : Decision)],
          I.approval.allowed) : List Decision × Bool).1 = s.1 ++ [_] from rfl,
          dropLast_concat_decisions] at hd
        exact h.1 hc.1 d hd
  · exact h

theorem checkReputationStage_inv (I : CheckInputs) (s : List Decision × Bool)
    (h : CheckInv s) : CheckInv (checkReputationStage I s) := by
  simp only [checkReputationStage]
  split
  · rename_i hc
    constructor
    · intro hfl
      exact append_nonblock (h.1 hc) (ite_allow_ne_block _ hfl _)
    · intro _ d hd
      rw [show ((s.1 ++ [(⟨"reputation",
        if I.reputation.allowed = true then "allow" else "block", I.reputation.code,
        if I.reputation.allowed = true then "low" else "high", I.reputation.reason,
        [("verdict", Json.str I.reputation.verdict),
         ("confidence", I.reputation.confidence),
         ("bundle_hash", I.reputation.redactedBundleHash)]⟩ : Decision)],
        I.reputation.allowed) : List Decision × Bool).1 = s.1 ++ [_] from rfl,
        dropLast_concat_decisions] at hd
      exact h.1 hc d hd
  · exact h

theorem gatewayCheck_blockHalt (I : CheckInputs) : BlockHaltOK (gatewayCheck I) := by
  cases hrp : resolveParent I.envScopeToken I.envScopePublicKey I.tokenVerification with
  | error c =>
    simp only [gatewayCheck, hrp]
    trivial
  | ok parent =>
    have hinv : CheckInv ([(⟨"precheck",
        if I.precheck.allowed = true then "allow" else "block", I.precheck.code,
        I.precheck.severity, I.precheck.reason,
        [("command", Json.str I.command),
         ("command_classes", Json.arr (I.precheck.commandClasses.map Json.str))]⟩ :
          Decision)], I.precheck.allowed) := by
      constructor
      · intro hfl d hd
        rcases List.mem_singleton.mp hd with rfl
        exact ite_allow_ne_block _ hfl _
      · intro _ d hd
        simp at hd
    have h5 := checkReputationStage_inv I _ (checkApprovalStage_inv I _
      (checkBomStage_inv I _ (checkProvStage_inv I _ hinv)))
    simp only [gatewayCheck, hrp]
    cases hflag : (checkReputationStage I (checkApprovalStage I (checkBomStage I
        (checkProvStage I ([(⟨"precheck",
          if I.precheck.allowed = true then "allow" else "block", I.precheck.code,
          I.precheck.severity, I.precheck.reason,
          [("command", Json.str I.command),
           ("command_classes", Json.arr (I.precheck.commandClasses.map Json.str))]⟩ :
            Decision)], I.precheck.allowed))))).2 with
    | true =>
      refine ⟨rfl, ?_⟩
      intro d hd
      rw [if_pos rfl, dropLast_concat_decisions] at hd
      exact h5.1 hflag d hd
    | false =>
      refine ⟨rfl, ?_⟩
      intro d hd
      rw [if_neg (by simp)] at hd
      exact h5.2 hflag d hd

/-- C2.  Fail-closed halting: in both the `run` and `gateway check` entry
points, every invocation that creates a session finalizes it into a
signed artifact, and any decision whose outcome is `block` is the last
decision recorded — no phase decision of any kind (in particular none for
a later phase other than `complete`) follows a block. -/
theorem fail_closed_halting :
    (∀ (I : RunInputs) (r : SessionResult), runCommand I = RunResult.session r →
      r.finalized = true ∧ ∀ d ∈ r.decisions.dropLast, d.outcome ≠ "block") ∧
    (∀ (I : CheckInputs) (r : SessionResult), gatewayCheck I = RunResult.session r →
      r.finalized = true ∧ ∀ d ∈ r.decisions.dropLast, d.outcome ≠ "block") := by
  constructor
  · intro I r hE
    have h := runCommand_blockHalt I
    rw [hE] at h
    exact h
  · intro I r hE
    have h := gatewayCheck_blockHalt I
    rw [hE] at h
    exact h

/-- Closed instance of C2: the fail-closed-halting shape at concrete
benign invocations of both entry points. -/
theorem fail_closed_halting_witness :
    (runCommand WitRun = RunResult.session (asSession (runCommand WitRun)) ∧
     (asSession (runCommand WitRun)).finalized = true ∧
     ∀ d ∈ (asSession (runCommand WitRun)).decisions.dropLast, d.outcome ≠ "block") ∧
    (gatewayCheck WitCheck = RunResult.session (asSession (gatewayCheck WitCheck)) ∧
     (asSession (gatewayCheck WitCheck)).finalized = true ∧
     ∀ d ∈ (asSession (gatewayCheck WitCheck)).decisions.dropLast, d.outcome ≠ "block") := by
  have h1 : runCommand WitRun = RunResult.session (asSession (runCommand WitRun)) := rfl
  have h2 := fail_closed_halting.1 WitRun _ h1
  have h3 : gatewayCheck WitCheck =
      RunResult.session (asSession (gatewayCheck WitCheck)) := rfl
  have h4 := fail_closed_halting.2 WitCheck _ h3
  exact ⟨⟨h1, h2.1, h2.2⟩, h3, h4.1, h4.2⟩

theorem resolveParent_error (t : String) (key : Option String)
    (ver : Except String ScopePayload) (hne : t.isEmpty = false)
    (hbad : key = none ∨
      (∃ k, key = some k ∧ (k.isEmpty = true ∨ decodeVerifyKeyB k = false)) ∨
      ∃ e, ver = Except.error e) :
    resolveParent (some t) key ver = Except.error 1 := by
  rcases hbad with h | ⟨k, hk, hkk⟩ | ⟨e, he⟩
  · simp [resolveParent, hne, h]
  · subst hk
    rcases hkk with h1 | h1
    · simp [resolveParent, hne, h1]
    · cases hke : k.isEmpty with
      | true => simp [resolveParent, hne, hke]
      | false => simp [resolveParent, hne, hke, h1]
  · cases key with
    | none => simp [resolveParent, hne]
    | some k =>
      cases hke : k.isEmpty with
      | true => simp [resolveParent, hne, hke]
      | false =>
        cases hdk : decodeVerifyKeyB k with
        | false => simp [resolveParent, hne, hke, hdk]
        | true => simp [resolveParent, hne, hke, hdk, he]

theorem resolveParent_ok_some (t : String) (key : Option String)
    (ver : Except String ScopePayload) (parent : Option String)
    (hne : t.isEmpty = false)
    (h : resolveParent (some t) key ver = Except.ok parent) :
    ∃ p, parent = some p := by
  cases key with
  | none => simp [resolveParent, hne] at h
  | some k =>
    cases hke : k.isEmpty with
    | true => simp [resolveParent, hne, hke] at h
    | false =>
      cases hdk : decodeVerifyKeyB k with
      | false => simp [resolveParent, hne, hke, hdk] at h
      | true =>
        cases ver with
        | error e => simp [resolveParent, hne, hke, hdk] at h
        | ok payload =>
          simp only [resolveParent, hne, hke, hdk, Bool.false_eq_true, if_false,
            if_true, Except.ok.injEq] at h
          exact ⟨payload.parentSession, h.symm⟩

def ParentOK (parent : Option String) : RunResult → Prop
  | .noSession _ => True
  | .session r => r.parentSessionId = parent

theorem runComplete_parent (parent : Option String) (ds : List Decision)
    (edges : List LineageEdge) (rc : Int) (outS errS : String) :
    ParentOK parent (runComplete parent ds edges rc outS errS) := rfl

theorem runTop_parent (I : RunInputs) (parent : Option String) (ds : List Decision)
    (edges : List LineageEdge) (rc : Int) (outS errS : String) :
    ParentOK parent (runTop I parent ds edges rc outS errS) := by
  cases hg : I.enableTopGuard with
  | false =>
    simp only [runTop, hg, Bool.false_eq_true, if_false]
    exact runComplete_parent _ _ _ _ _ _
  | true =>
    cases hsc : I.topScan.outcome with
    | block => simp only [runTop, hg, hsc, if_true]; rfl
    | sanitize =>
      cases hst : I.topScan.sanitizedText with
      | some t =>
        simp only [runTop, hg, hsc, hst, if_true]
        exact runComplete_parent _ _ _ _ _ _
      | none =>
        simp only [runTop, hg, hsc, hst, if_true]
        exact runComplete_parent _ _ _ _ _ _
    | pass =>
      simp only [runTop, hg, hsc, if_true]
      exact runComplete_parent _ _ _ _ _ _
    | annotate =>
      simp only [runTop, hg, hsc, if_true]
      exact runComplete_parent _ _ _ _ _ _

theorem runExec_parent (I : RunInputs) (parent : Option String) (ds : List Decision)
    (edges : List LineageEdge) (wrapped : List String) :
    ParentOK parent (runExec I parent ds edges wrapped) := by
  cases hex : I.execResult with
  | timeout t => simp only [runExec, hex]; rfl
  | osError msg => simp only [runExec, hex]; rfl
  | completed rc outS errS =>
    simp only [runExec, hex]
    exact runTop_parent _ _ _ _ _ _ _

theorem runReputation_parent (I : RunInputs) (parent : Option String)
    (ds : List Decision) (wrapped : List String) :
    ParentOK parent (runReputation I parent ds wrapped) := by
  cases hrep : I.reputation.allowed with
  | true =>
    simp only [runReputation, hrep, if_true]
    exact runExec_parent _ _ _ _ _
  | false => simp only [runReputation, hrep, Bool.false_eq_true, if_false]; rfl

theorem runApproval_parent (I : RunInputs) (parent : Option String)
    (ds : List Decision) (wrapped : List String) :
    ParentOK parent (runApproval I parent ds wrapped) := by
  simp only [runApproval]
  split
  · split
    · rfl
    · cases hap : I.approval.allowed with
      | true =>
        simp only [hap, if_true]
        exact runReputation_parent _ _ _ _
      | false => simp only [hap, Bool.false_eq_true, if_false]; rfl
  · exact runReputation_parent _ _ _ _

theorem runCommand_parent (I : RunInputs) (parent : Option String)
    (hrp : resolveParent I.envScopeToken I.envScopePublicKey I.tokenVerification =
      Except.ok parent) :
    ParentOK parent (runCommand I) := by
  simp only [runCommand, hrp]
  split
  · trivial
  · split
    · split
      · rfl
      · split
        · exact runApproval_parent _ _ _ _
        · split
          · exact runApproval_parent _ _ _ _
          · rfl
    · rfl

theorem gatewayCheck_parent (I : CheckInputs) (parent : Option String)
    (hrp : resolveParent I.envScopeToken I.envScopePublicKey I.tokenVerification =
      Except.ok parent) :
    ParentOK parent (gatewayCheck I) := by
  simp only [gatewayCheck, hrp]
  rfl

/-- C3.  Trust-bootstrap refusal: whenever `SKILLGATE_SCOPE_TOKEN` is set
(and non-empty) but the public key is absent or empty, fails to decode to
a 32-byte Ed25519 key, or the token fails verification, both `run` and
`gateway check` exit with code 1 before any session exists — no decision
is recorded and no artifact is produced; and whenever either entry point
does create a session with the token set, the session's
`parent_session_id` is the verified parent, never `None`. -/
theorem trust_bootstrap_refusal :
    (∀ (I : RunInputs) (tok : String),
      I.envScopeToken = some tok → tok.isEmpty = false →
      (extractWrappedCommand I.args).isEmpty = false →
      (I.envScopePublicKey = none ∨
       (∃ k, I.envScopePublicKey = some k ∧
         (k.isEmpty = true ∨ decodeVerifyKeyB k = false)) ∨
       ∃ e, I.tokenVerification = Except.error e) →
      runCommand I = RunResult.noSession 1) ∧
    (∀ (I : CheckInputs) (tok : String),
      I.envScopeToken = some tok → tok.isEmpty = false →
      (I.envScopePublicKey = none ∨
       (∃ k, I.envScopePublicKey = some k ∧
         (k.isEmpty = true ∨ decodeVerifyKeyB k = false)) ∨
       ∃ e, I.tokenVerification = Except.error e) →
      gatewayCheck I = RunResult.noSession 1) ∧
    (∀ (I : RunInputs) (tok : String) (r : SessionResult),
      I.envScopeToken = some tok → tok.isEmpty = false →
      runCommand I = RunResult.session r → ∃ p, r.parentSessionId = some p) ∧
    (∀ (I : CheckInputs) (tok : String) (r : SessionResult),
      I.envScopeToken = some tok → tok.isEmpty = false →
      gatewayCheck I = RunResult.session r → ∃ p, r.parentSessionId = some p) := by
  refine ⟨?_, ?_, ?_, ?_⟩
  · intro I tok htok hne hw hbad
    have herr := resolveParent_error tok I.envScopePublicKey I.tokenVerification hne hbad
    simp only [runCommand, hw, Bool.false_eq_true, if_false, htok, herr]
  · intro I tok htok hne hbad
    have herr := resolveParent_error tok I.envScopePublicKey I.tokenVerification hne hbad
    simp only [gatewayCheck, htok, herr]
  · intro I tok r htok hne hE
    cases hrp : resolveParent I.envScopeToken I.envScopePublicKey I.tokenVerification with
    | error c =>
      exfalso
      cases hw : (extractWrappedCommand I.args).isEmpty with
      | true => rw [show runCommand I = RunResult.noSession 3 from by
          simp only [runCommand, hw, if_true]] at hE
                exact RunResult.noConfusion hE
      | false => rw [show runCommand I = RunResult.noSession c from by
          simp only [runCommand, hw, Bool.false_eq_true, if_false, hrp]] at hE
                 exact RunResult.noConfusion hE
    | ok parent =>
      have hp := runCommand_parent I parent hrp
      rw [hE] at hp
      rcases resolveParent_ok_some tok I.envScopePublicKey I.tokenVerification parent hne
        (htok ▸ hrp) with ⟨p, hp2⟩
      exact ⟨p, by rw [hp, hp2]⟩
  · intro I tok r htok hne hE
    cases hrp : resolveParent I.envScopeToken I.envScopePublicKey I.tokenVerification with
    | error c =>
      exfalso
      rw [show gatewayCheck I = RunResult.noSession c from by
        simp only [gatewayCheck, hrp]] at hE
      exact RunResult.noConfusion hE
    | ok parent =>
      have hp := gatewayCheck_parent I parent hrp
      rw [hE] at hp
      rcases resolveParent_ok_some tok I.envScopePublicKey I.tokenVerification parent hne
        (htok ▸ hrp) with ⟨p, hp2⟩
      exact ⟨p, by rw [hp, hp2]⟩

/-- Closed instance of C3: refusal at token-without-key inputs, and
scoped (never unscoped) sessions at valid-token inputs. -/
theorem trust_bootstrap_refusal_witness :
    (WitRunBadKey.envScopeToken = some "tok" ∧ ("tok" : String).isEmpty = false ∧
     (extractWrappedCommand WitRunBadKey.args).isEmpty = false ∧
     runCommand WitRunBadKey = RunResult.noSession 1) ∧
    (WitCheckBadKey.envScopeToken = some "tok" ∧
     gatewayCheck WitCheckBadKey = RunResult.noSession 1) ∧
    (runCommand WitRunTok = RunResult.session (asSession (runCommand WitRunTok)) ∧
     ∃ p, (asSession (runCommand WitRunTok)).parentSessionId = some p) ∧
    (gatewayCheck WitCheckTok =
       RunResult.session (asSession (gatewayCheck WitCheckTok)) ∧
     ∃ p, (asSession (gatewayCheck WitCheckTok)).parentSessionId = some p) := by
  refine ⟨⟨rfl, rfl, rfl, ?_⟩, ⟨rfl, ?_⟩, ⟨rfl, ?_⟩, ⟨rfl, ?_⟩⟩
  · exact trust_bootstrap_refusal.1 WitRunBadKey "tok" rfl rfl rfl (Or.inl rfl)
  · exact trust_bootstrap_refusal.2.1 WitCheckBadKey "tok" rfl rfl (Or.inl rfl)
  · exact trust_bootstrap_refusal.2.2.1 WitRunTok "tok" _ rfl rfl rfl
  · exact trust_bootstrap_refusal.2.2.2 WitCheckTok "tok" _ rfl rfl rfl

theorem append_forall {P : Decision → Prop} {ds : List Decision} {d : Decision}
    (h : ∀ x ∈ ds, P x) (hd : P d) : ∀ x ∈ ds ++ [d], P x := by
  intro x hx
  rcases List.mem_append.mp hx with h1 | h1
  · exact h x h1
  · rw [List.mem_singleton.mp h1]
    exact hd

theorem mem_append_singleton {ds : List Decision} {d x : Decision}
    (hx : x ∈ ds ++ [d]) : x ∈ ds ∨ x = d := by
  rcases List.mem_append.mp hx with h1 | h1
  · exact Or.inl h1
  · exact Or.inr (List.mem_singleton.mp h1)

theorem runComplete_mem (parent : Option String) (ds : List Decision)
    (edges : List LineageEdge) (rc : Int) (outS errS : String) :
    ∀ d ∈ runDecisions (runComplete parent ds edges rc outS errS),
      d ∈ ds ∨ d = completeDecision rc := by
  intro d hd
  exact mem_append_singleton hd

theorem runTop_mem (I : RunInputs) (parent : Option String) (ds : List Decision)
    (edges : List LineageEdge) (rc : Int) (outS errS : String) :
    ∀ d ∈ runDecisions (runTop I parent ds edges rc outS errS),
      d ∈ ds ∨
      d = toolOutputDecision I.topScan "TOP guard decision on wrapped command output." ∨
      d = completeDecision rc := by
  intro d hd
  cases hg : I.enableTopGuard with
  | false =>
    rw [show runTop I parent ds edges rc outS errS =
      runComplete parent ds edges rc outS errS from by
        simp only [runTop, hg, Bool.false_eq_true, if_false]] at hd
    rcases runComplete_mem _ _ _ _ _ _ d hd with h | h
    · exact Or.inl h
    · exact .inr (.inr h)
  | true =>
    cases hsc : I.topScan.outcome with
    | block =>
      rw [show runTop I parent ds edges rc outS errS = RunResult.session ⟨parent,
        ds ++ [toolOutputDecision I.topScan
          "TOP guard decision on wrapped command output."], edges, true, 1, "", "",
        false⟩ from by simp only [runTop, hg, hsc, if_true]] at hd
      rcases mem_append_singleton hd with h | h
      · exact Or.inl h
      · exact .inr (.inl h)
    | sanitize =>
      cases hst : I.topScan.sanitizedText with
      | some t =>
        rw [show runTop I parent ds edges rc outS errS = runComplete parent
          (ds ++ [toolOutputDecision I.topScan
            "TOP guard decision on wrapped command output."]) edges rc t "" from by
          simp only [runTop, hg, hsc, hst, if_true]] at hd
        rcases runComplete_mem _ _ _ _ _ _ d hd with h | h
        · rcases mem_append_singleton h with h2 | h2
          · exact Or.inl h2
          · exact .inr (.inl h2)
        · exact .inr (.inr h)
      | none =>
        rw [show runTop I parent ds edges rc outS errS = runComplete parent
          (ds ++ [toolOutputDecision I.topScan
            "TOP guard decision on wrapped command output."]) edges rc outS errS from by
          simp only [runTop, hg, hsc, hst, if_true]] at hd
        rcases runComplete_mem _ _ _ _ _ _ d hd with h | h
        · rcases mem_append_singleton h with h2 | h2
          · exact Or.inl h2
          · exact .inr (.inl h2)
        · exact .inr (.inr h)
    | pass =>
      rw [show runTop I parent ds edges rc outS errS = runComplete parent
        (ds ++ [toolOutputDecision I.topScan
          "TOP guard decision on wrapped command output."]) edges rc outS errS from by
        simp only [runTop, hg, hsc, if_true]] at hd
      rcases runComplete_mem _ _ _ _ _ _ d hd with h | h
      · rcases mem_append_singleton h with h2 | h2
        · exact Or.inl h2
        · exact .inr (.inl h2)
      · exact .inr (.inr h)
    | annotate =>
      rw [show runTop I parent ds edges rc outS errS = runComplete parent
        (ds ++ [toolOutputDecision I.topScan
          "TOP guard decision on wrapped command output."]) edges rc outS errS from by
        simp only [runTop, hg, hsc, if_true]] at hd
      rcases runComplete_mem _ _ _ _ _ _ d hd with h | h
      · rcases mem_append_singleton h with h2 | h2
        · exact Or.inl h2
        · exact .inr (.inl h2)
      · exact .inr (.inr h)

theorem runExec_mem (I : RunInputs) (parent : Option String) (ds : List Decision)
    (edges : List LineageEdge) (wrapped : List String) :
    ∀ d ∈ runDecisions (runExec I parent ds edges wrapped),
      d ∈ ds ∨ d.phase = "execute_start" ∨ d.phase = "execute" ∨
      d = toolOutputDecision I.topScan "TOP guard decision on wrapped command output." ∨
      ∃ rc outS errS, I.execResult = ExecOutcome.completed rc outS errS ∧
        d = completeDecision rc := by
  intro d hd
  cases hex : I.execResult with
  | timeout t =>
    rw [show runExec I parent ds edges wrapped = RunResult.session ⟨parent,
      (ds ++ [executeStartDecision I wrapped]) ++ [⟨"execute", "block", "SG-RT-TIMEOUT", "high",
        "Wrapped command timed out after " ++ intToStr t ++ "s", []⟩], edges, true, 1,
      "", "", true⟩ from by simp only [runExec, hex]] at hd
    rcases mem_append_singleton hd with h | h
    · rcases mem_append_singleton h with h2 | h2
      · exact Or.inl h2
      · exact .inr (.inl (by rw [h2]; rfl))
    · exact .inr (.inr (.inl (by rw [h])))
  | osError msg =>
    rw [show runExec I parent ds edges wrapped = RunResult.session ⟨parent,
      (ds ++ [executeStartDecision I wrapped]) ++ [⟨"execute", "block", "SG-RT-EXEC-001", "critical",
        "Wrapped command execution failed: " ++ msg, []⟩], edges, true, 2,
      "", "", false⟩ from by simp only [runExec, hex]] at hd
    rcases mem_append_singleton hd with h | h
    · rcases mem_append_singleton h with h2 | h2
      · exact Or.inl h2
      · exact .inr (.inl (by rw [h2]; rfl))
    · exact .inr (.inr (.inl (by rw [h])))
  | completed rc outS errS =>
    rw [show runExec I parent ds edges wrapped =
      runTop I parent (ds ++ [executeStartDecision I wrapped]) edges rc outS errS from by
        simp only [runExec, hex]] at hd
    rcases runTop_mem _ _ _ _ _ _ _ d hd with h | h | h
    · rcases mem_append_singleton h with h2 | h2
      · exact Or.inl h2
      · exact .inr (.inl (by rw [h2]; rfl))
    · exact .inr (.inr (.inr (.inl h)))
    · exact .inr (.inr (.inr (.inr ⟨rc, outS, errS, rfl, h⟩)))

theorem runReputation_mem (I : RunInputs) (parent : Option String) (ds : List Decision)
    (wrapped : List String) :
    ∀ d ∈ runDecisions (runReputation I parent ds wrapped),
      d ∈ ds ∨ d.phase = "reputation" ∨ d.phase = "execute_start" ∨
      d.phase = "execute" ∨
      d = toolOutputDecision I.topScan "TOP guard decision on wrapped command output." ∨
      ∃ rc outS errS, I.execResult = ExecOutcome.completed rc outS errS ∧
        d = completeDecision rc := by
  intro d hd
  cases hrep : I.reputation.allowed with
  | true =>
    rw [show runReputation I parent ds wrapped = runExec I parent (ds ++ [⟨"reputation",
      if I.reputation.allowed = true then "allow" else "block", I.reputation.code,
      if I.reputation.allowed = true then "low" else "high", I.reputation.reason,
      [("verdict", Json.str I.reputation.verdict),
       ("confidence", I.reputation.confidence),
       ("bundle_hash", I.reputation.redactedBundleHash)]⟩])
      (lineageEdgesFor parent I.sessionId (wrapped.headD "")) wrapped from by
        simp only [runReputation, hrep, if_true]] at hd
    rcases runExec_mem _ _ _ _ _ d hd with h | h | h | h | h
    · rcases mem_append_singleton h with h2 | h2
      · exact Or.inl h2
      · exact .inr (.inl (by rw [h2]))
    · exact .inr (.inr (.inl h))
    · exact .inr (.inr (.inr (.inl h)))
    · exact .inr (.inr (.inr (.inr (.inl h))))
    · exact .inr (.inr (.inr (.inr (.inr h))))
  | false =>
    rw [show runReputation I parent ds wrapped = RunResult.session ⟨parent,
      ds ++ [⟨"reputation",
        if I.reputation.allowed = true then "allow" else "block", I.reputation.code,
        if I.reputation.allowed = true then "low" else "high", I.reputation.reason,
        [("verdict", Json.str I.reputation.verdict),
         ("confidence", I.reputation.confidence),
         ("bundle_hash", I.reputation.redactedBundleHash)]⟩], [], true, 1, "", "",
      false⟩ from by simp only [runReputation, hrep, Bool.false_eq_true, if_false]] at hd
    rcases mem_append_singleton hd with h | h
    · exact Or.inl h
    · exact .inr (.inl (by rw [h]))

theorem runApproval_mem (I : RunInputs) (parent : Option String) (ds : List Decision)
    (wrapped : List String) :
    ∀ d ∈ runDecisions (runApproval I parent ds wrapped),
      d ∈ ds ∨ d.phase = "approval" ∨ d.phase = "reputation" ∨
      d.phase = "execute_start" ∨ d.phase = "execute" ∨
      d = toolOutputDecision I.topScan "TOP guard decision on wrapped command output." ∨
      ∃ rc outS errS, I.execResult = ExecOutcome.completed rc outS errS ∧
        d = completeDecision rc := by
  intro d hd
  by_cases hq : requiresProvenance I.env = true ∧
      0 < max I.requiredReviewers (parseNonnegativeIntEnv I.envApprovalReviewers)
  · cases haf : optFalsy I.approvalFile with
    | true =>
      rw [show runApproval I parent ds wrapped = RunResult.session ⟨parent,
        ds ++ [⟨"approval", "block", "SG-RT-APPROVAL-001", "high",
          "Approval file required but missing.", []⟩], [], true, 1, "", "", false⟩
        from by simp only [runApproval, hq, haf, and_self, if_true]] at hd
      rcases mem_append_singleton hd with h | h
      · exact Or.inl h
      · exact .inr (.inl (by rw [h]))
    | false =>
      cases hap : I.approval.allowed with
      | true =>
        rw [show runApproval I parent ds wrapped = runReputation I parent
          (ds ++ [⟨"approval", if I.approval.allowed = true then "allow" else "block",
            I.approval.code, if I.approval.allowed = true then "low" else "high",
            I.approval.reason,
            [("reviewer_count", Json.int I.approval.reviewerCount)]⟩]) wrapped from by
          simp only [runApproval, hq, haf, hap, and_self, Bool.false_eq_true, if_false,
            if_true]] at hd
        rcases runReputation_mem _ _ _ _ d hd with h | h | h | h | h | h
        · rcases mem_append_singleton h with h2 | h2
          · exact Or.inl h2
          · exact .inr (.inl (by rw [h2]))
        · exact .inr (.inr (.inl h))
        · exact .inr (.inr (.inr (.inl h)))
        · exact .inr (.inr (.inr (.inr (.inl h))))
        · exact .inr (.inr (.inr (.inr (.inr (.inl h)))))
        · exact .inr (.inr (.inr (.inr (.inr (.inr h)))))
      | false =>
        rw [show runApproval I parent ds wrapped = RunResult.session ⟨parent,
          ds ++ [⟨"approval", if I.approval.allowed = true then "allow" else "block",
            I.approval.code, if I.approval.allowed = true then "low" else "high",
            I.approval.reason,
            [("reviewer_count", Json.int I.approval.reviewerCount)]⟩], [], true, 1,
          "", "", false⟩ from by
          simp only [runApproval, hq, haf, hap, and_self, Bool.false_eq_true, if_false,
            if_true]] at hd
        rcases mem_append_singleton hd with h | h
        · exact Or.inl h
        · exact .inr (.inl (by rw [h]))
  · rw [show runApproval I parent ds wrapped = runReputation I parent ds wrapped
      from by simp only [runApproval, hq, if_false]] at hd
    rcases runReputation_mem _ _ _ _ d hd with h | h | h | h | h | h
    · exact Or.inl h
    · exact .inr (.inr (.inl h))
    · exact .inr (.inr (.inr (.inl h)))
    · exact .inr (.inr (.inr (.inr (.inl h))))
    · exact .inr (.inr (.inr (.inr (.inr (.inl h)))))
    · exact .inr (.inr (.inr (.inr (.inr (.inr h)))))

theorem runCommand_mem (I : RunInputs) :
    ∀ d ∈ runDecisions (runCommand I),
      d.phase = "precheck" ∨ d.phase = "provenance" ∨ d.phase = "bom_gate" ∨
      d.phase = "approval" ∨ d.phase = "reputation" ∨ d.phase = "execute_start" ∨
      d.phase = "execute" ∨
      d = toolOutputDecision I.topScan "TOP guard decision on wrapped command output." ∨
      ∃ rc outS errS, I.execResult = ExecOutcome.completed rc outS errS ∧
        d = completeDecision rc := by
  intro d hd
  cases hw : (extractWrappedCommand I.args).isEmpty with
  | true =>
    rw [show runCommand I = RunResult.noSession 3 from by
      simp only [runCommand, hw, if_true]] at hd
    simp [runDecisions] at hd
  | false =>
    cases hrp : resolveParent I.envScopeToken I.envScopePublicKey I.tokenVerification with
    | error c =>
      rw [show runCommand I = RunResult.noSession c from by
        simp only [runCommand, hw, Bool.false_eq_true, if_false, hrp]] at hd
      simp [runDecisions] at hd
    | ok parent =>
      cases hpre : I.precheck.allowed with
      | false =>
        rw [show runCommand I = RunResult.session ⟨parent, [⟨"precheck",
          if I.precheck.allowed = true then "allow" else "block", I.precheck.code,
          I.precheck.severity, I.precheck.reason,
          [("command", Json.arr ((extractWrappedCommand I.args).map Json.str)),
           ("command_classes", Json.arr (I.precheck.commandClasses.map Json.str))]⟩],
          [], true, 1, "", "", false⟩ from by
          simp only [runCommand, hw, Bool.false_eq_true, if_false, hrp, hpre]] at hd
        rcases List.mem_singleton.mp hd with rfl
        exact Or.inl rfl
      | true =>
        by_cases hprov : requiresProvenance I.env = true ∧
            (optFalsy I.skillId = true ∨ optFalsy I.skillHash = true ∨
              optFalsy I.scanAttestation = true)
        · rw [show runCommand I = RunResult.session ⟨parent, [⟨"precheck",
            if I.precheck.allowed = true then "allow" else "block", I.precheck.code,
            I.precheck.severity, I.precheck.reason,
            [("command", Json.arr ((extractWrappedCommand I.args).map Json.str)),
             ("command_classes", Json.arr (I.precheck.commandClasses.map Json.str))]⟩,
            ⟨"provenance", "block", "SG-RT-PROV-001", "high",
              "Missing required runtime provenance fields. " ++
                "Provide --skill-id, --skill-hash, and --scan-attestation.", []⟩],
            [], true, 1, "", "", false⟩ from by
            simp only [runCommand, hw, Bool.false_eq_true, if_false, hrp, hpre, hprov,
              and_self, if_true]] at hd
          rcases List.mem_cons.mp hd with rfl | hd2
          · exact Or.inl rfl
          · rcases List.mem_singleton.mp hd2 with rfl
            exact .inr (.inl rfl)
        · have hstep : runCommand I =
              (if optFalsy I.skillId = true then
                runApproval I parent [⟨"precheck",
                  if I.precheck.allowed = true then "allow" else "block",
                  I.precheck.code, I.precheck.severity, I.precheck.reason,
                  [("command", Json.arr ((extractWrappedCommand I.args).map Json.str)),
                   ("command_classes",
                     Json.arr (I.precheck.commandClasses.map Json.str))]⟩]
                  (extractWrappedCommand I.args)
              else if I.bom.allowed = true then
                runApproval I parent [⟨"precheck",
                  if I.precheck.allowed = true then "allow" else "block",
                  I.precheck.code, I.precheck.severity, I.precheck.reason,
                  [("command", Json.arr ((extractWrappedCommand I.args).map Json.str)),
                   ("command_classes",
                     Json.arr (I.precheck.commandClasses.map Json.str))]⟩,
                  ⟨"bom_gate", if I.bom.allowed = true then "allow" else "block",
                    I.bom.code, if I.bom.allowed = true then "low" else "critical",
                    I.bom.reason,
                    [("skill_id", Json.str (I.skillId.getD "")),
                     ("warning", match I.bom.warning with
                       | some w => Json.str w
                       | none => Json.null)]⟩]
                  (extractWrappedCommand I.args)
              else RunResult.session ⟨parent, [⟨"precheck",
                  if I.precheck.allowed = true then "allow" else "block",
                  I.precheck.code, I.precheck.severity, I.precheck.reason,
                  [("command", Json.arr ((extractWrappedCommand I.args).map Json.str)),
                   ("command_classes",
                     Json.arr (I.precheck.commandClasses.map Json.str))]⟩,
                  ⟨"bom_gate", if I.bom.allowed = true then "allow" else "block",
                    I.bom.code, if I.bom.allowed = true then "low" else "critical",
                    I.bom.reason,
                    [("skill_id", Json.str (I.skillId.getD "")),
                     ("warning", match I.bom.warning with
                       | some w => Json.str w
                       | none => Json.null)]⟩], [], true, 1, "", "", false⟩) := by
            simp only [runCommand, hw, Bool.false_eq_true, if_false, hrp, hpre, if_true]
            rw [if_neg hprov]
          rw [hstep] at hd
          cases hsf : optFalsy I.skillId with
          | true =>
            rw [if_pos hsf] at hd
            rcases runApproval_mem _ _ _ _ d hd with h | h | h | h | h | h | h
            · rcases List.mem_singleton.mp h with rfl
              exact Or.inl rfl
            · exact .inr (.inr (.inr (.inl h)))
            · exact .inr (.inr (.inr (.inr (.inl h))))
            · exact .inr (.inr (.inr (.inr (.inr (.inl h)))))
            · exact .inr (.inr (.inr (.inr (.inr (.inr (.inl h))))))
            · exact .inr (.inr (.inr (.inr (.inr (.inr (.inr
                (Or.inl h)))))))
            · exact .inr (.inr (.inr (.inr (.inr (.inr (.inr
                (Or.inr h)))))))
          | false =>
            rw [if_neg (by simp [hsf])] at hd
            cases hbom : I.bom.allowed with
            | true =>
              rw [if_pos hbom] at hd
              rcases runApproval_mem _ _ _ _ d hd with h | h | h | h | h | h | h
              · rcases List.mem_cons.mp h with rfl | h2
                · exact Or.inl rfl
                · rcases List.mem_singleton.mp h2 with rfl
                  exact .inr (.inr (.inl rfl))
              · exact .inr (.inr (.inr (.inl h)))
              · exact .inr (.inr (.inr (.inr (.inl h))))
              · exact .inr (.inr (.inr (.inr (.inr (.inl h)))))
              · exact .inr (.inr (.inr (.inr (.inr (.inr (.inl h))))))
              · exact .inr (.inr (.inr (.inr (.inr (.inr (.inr
                  (Or.inl h)))))))
              · exact .inr (.inr (.inr (.inr (.inr (.inr (.inr
                  (Or.inr h)))))))
            | false =>
              rw [if_neg (by simp [hbom])] at hd
              rcases List.mem_cons.mp hd with rfl | hd2
              · exact Or.inl rfl
              · rcases List.mem_singleton.mp hd2 with rfl
                exact .inr (.inr (.inl rfl))

theorem bool_not_true {b : Bool} (h : (!b) = true) : b = false := by
  cases hb : b
  · rfl
  · rw [hb] at h
    simp at h

theorem getLast?_append_singleton (l : List Decision) (a : Decision) :
    (l ++ [a]).getLast? = some a := by
  simp

theorem runComplete_last (parent : Option String) (ds : List Decision)
    (edges : List LineageEdge) (rc : Int) (outS errS : String) :
    (runDecisions (runComplete parent ds edges rc outS errS)).getLast? =
      some (completeDecision rc) := by
  show (ds ++ [completeDecision rc]).getLast? = some (completeDecision rc)
  exact getLast?_append_singleton _ _

theorem runTop_last (I : RunInputs) (parent : Option String) (ds : List Decision)
    (edges : List LineageEdge) (rc : Int) (outS errS : String)
    (htop : I.enableTopGuard = true → I.topScan.outcome ≠ TopOutcome.block) :
    (runDecisions (runTop I parent ds edges rc outS errS)).getLast? =
      some (completeDecision rc) := by
  cases hg : I.enableTopGuard with
  | false =>
    rw [show runTop I parent ds edges rc outS errS =
      runComplete parent ds edges rc outS errS from by
        simp only [runTop, hg, Bool.false_eq_true, if_false]]
    exact runComplete_last _ _ _ _ _ _
  | true =>
    cases hsc : I.topScan.outcome with
    | block => exact absurd hsc (htop hg)
    | sanitize =>
      cases hst : I.topScan.sanitizedText with
      | some t =>
        rw [show runTop I parent ds edges rc outS errS = runComplete parent
          (ds ++ [toolOutputDecision I.topScan
            "TOP guard decision on wrapped command output."]) edges rc t "" from by
          simp only [runTop, hg, hsc, hst, if_true]]
        exact runComplete_last _ _ _ _ _ _
      | none =>
        rw [show runTop I parent ds edges rc outS errS = runComplete parent
          (ds ++ [toolOutputDecision I.topScan
            "TOP guard decision on wrapped command output."]) edges rc outS errS from by
          simp only [runTop, hg, hsc, hst, if_true]]
        exact runComplete_last _ _ _ _ _ _
    | pass =>
      rw [show runTop I parent ds edges rc outS errS = runComplete parent
        (ds ++ [toolOutputDecision I.topScan
          "TOP guard decision on wrapped command output."]) edges rc outS errS from by
        simp only [runTop, hg, hsc, if_true]]
      exact runComplete_last _ _ _ _ _ _
    | annotate =>
      rw [show runTop I parent ds edges rc outS errS = runComplete parent
        (ds ++ [toolOutputDecision I.topScan
          "TOP guard decision on wrapped command output."]) edges rc outS errS from by
        simp only [runTop, hg, hsc, if_true]]
      exact runComplete_last _ _ _ _ _ _

theorem runApproval_to_reputation (I : RunInputs) (parent : Option String)
    (ds : List Decision) (wrapped : List String)
    (hap : (!(requiresProvenance I.env &&
        decide (0 < max I.requiredReviewers
          (parseNonnegativeIntEnv I.envApprovalReviewers))) ||
      (!optFalsy I.approvalFile && I.approval.allowed)) = true) :
    ∃ ds', runApproval I parent ds wrapped = runReputation I parent ds' wrapped := by
  by_cases hq : requiresProvenance I.env = true ∧
      0 < max I.requiredReviewers (parseNonnegativeIntEnv I.envApprovalReviewers)
  · have hqb : (requiresProvenance I.env &&
        decide (0 < max I.requiredReviewers
          (parseNonnegativeIntEnv I.envApprovalReviewers))) = true := by
      rcases hq with ⟨h1, h2⟩
      rw [h1]
      simp [h2]
    rw [hqb] at hap
    simp only [Bool.not_true, Bool.false_or, Bool.and_eq_true] at hap
    have hap1 : optFalsy I.approvalFile = false := bool_not_true hap.1
    have hap2 : I.approval.allowed = true := hap.2
    refine ⟨ds ++ [⟨"approval", if I.approval.allowed = true then "allow" else "block",
      I.approval.code, if I.approval.allowed = true then "low" else "high",
      I.approval.reason,
      [("reviewer_count", Json.int I.approval.reviewerCount)]⟩], ?_⟩
    simp only [runApproval, hq, and_self, if_true, hap1, Bool.false_eq_true, if_false,
      hap2]
  · exact ⟨ds, by simp only [runApproval, hq, if_false]⟩

theorem runReputation_to_exec (I : RunInputs) (parent : Option String)
    (ds : List Decision) (wrapped : List String)
    (hrep : I.reputation.allowed = true) :
    ∃ ds', runReputation I parent ds wrapped = runExec I parent ds'
      (lineageEdgesFor parent I.sessionId (wrapped.headD "")) wrapped :=
  ⟨ds ++ [⟨"reputation", if I.reputation.allowed = true then "allow" else "block",
    I.reputation.code, if I.reputation.allowed = true then "low" else "high",
    I.reputation.reason,
    [("verdict", Json.str I.reputation.verdict),
     ("confidence", I.reputation.confidence),
     ("bundle_hash", I.reputation.redactedBundleHash)]⟩],
   by simp only [runReputation, hrep, if_true]⟩

theorem runCommand_to_exec (I : RunInputs) (hre : reachesExecute I = true) :
    ∃ parent ds, runCommand I = runExec I parent ds
      (lineageEdgesFor parent I.sessionId ((extractWrappedCommand I.args).headD ""))
      (extractWrappedCommand I.args) := by
  simp only [reachesExecute, Bool.and_eq_true] at hre
  obtain ⟨⟨⟨⟨⟨⟨hwb, hrpb⟩, hpre⟩, hprovb⟩, hbomb⟩, hapb⟩, hrep⟩ := hre
  have hw : (extractWrappedCommand I.args).isEmpty = false := bool_not_true hwb
  cases hrp : resolveParent I.envScopeToken I.envScopePublicKey I.tokenVerification with
  | error c =>
    rw [hrp] at hrpb
    simp at hrpb
  | ok parent =>
    have hprovBool : (requiresProvenance I.env &&
        (optFalsy I.skillId || optFalsy I.skillHash || optFalsy I.scanAttestation)) =
        false := bool_not_true hprovb
    have hprovP : ¬(requiresProvenance I.env = true ∧
        (optFalsy I.skillId = true ∨ optFalsy I.skillHash = true ∨
          optFalsy I.scanAttestation = true)) := by
      rintro ⟨h1, h2⟩
      rw [h1] at hprovBool
      rcases h2 with h | h | h <;> rw [h] at hprovBool <;> simp at hprovBool
    have hstep : runCommand I =
        (if optFalsy I.skillId = true then
          runApproval I parent [⟨"precheck",
            if I.precheck.allowed = true then "allow" else "block",
            I.precheck.code, I.precheck.severity, I.precheck.reason,
            [("command", Json.arr ((extractWrappedCommand I.args).map Json.str)),
             ("command_classes",
               Json.arr (I.precheck.commandClasses.map Json.str))]⟩]
            (extractWrappedCommand I.args)
        else if I.bom.allowed = true then
          runApproval I parent [⟨"precheck",
            if I.precheck.allowed = true then "allow" else "block",
            I.precheck.code, I.precheck.severity, I.precheck.reason,
            [("command", Json.arr ((extractWrappedCommand I.args).map Json.str)),
             ("command_classes",
               Json.arr (I.precheck.commandClasses.map Json.str))]⟩,
            ⟨"bom_gate", if I.bom.allowed = true then "allow" else "block",
              I.bom.code, if I.bom.allowed = true then "low" else "critical",
              I.bom.reason,
              [("skill_id", Json.str (I.skillId.getD "")),
               ("warning", match I.bom.warning with
                 | some w => Json.str w
                 | none => Json.null)]⟩]
            (extractWrappedCommand I.args)
        else RunResult.session ⟨parent, [⟨"precheck",
            if I.precheck.allowed = true then "allow" else "block",
            I.precheck.code, I.precheck.severity, I.precheck.reason,
            [("command", Json.arr ((extractWrappedCommand I.args).map Json.str)),
             ("command_classes",
               Json.arr (I.precheck.commandClasses.map Json.str))]⟩,
            ⟨"bom_gate", if I.bom.allowed = true then "allow" else "block",
              I.bom.code, if I.bom.allowed = true then "low" else "critical",
              I.bom.reason,
              [("skill_id", Json.str (I.skillId.getD "")),
               ("warning", match I.bom.warning with
                 | some w => Json.str w
                 | none => Json.null)]⟩], [], true, 1, "", "", false⟩) := by
      simp only [runCommand, hw, Bool.false_eq_true, if_false, hrp, hpre, if_true]
      rw [if_neg hprovP]
    cases hsf : optFalsy I.skillId with
    | true =>
      rw [if_pos hsf] at hstep
      rcases runApproval_to_reputation I parent _ _ hapb with ⟨ds2, h2⟩
      rcases runReputation_to_exec I parent ds2 _ hrep with ⟨ds3, h3⟩
      exact ⟨parent, ds3, by rw [hstep, h2, h3]⟩
    | false =>
      rw [if_neg (by simp [hsf])] at hstep
      have hbom : I.bom.allowed = true := by
        rw [hsf] at hbomb
        simpa using hbomb
      rw [if_pos hbom] at hstep
      rcases runApproval_to_reputation I parent _ _ hapb with ⟨ds2, h2⟩
      rcases runReputation_to_exec I parent ds2 _ hrep with ⟨ds3, h3⟩
      exact ⟨parent, ds3, by rw [hstep, h2, h3]⟩

/-- C7.  Timeout handling: whenever the pipeline reaches execution and the
wrapped command exceeds the timeout, the child is terminated (modelled
`subprocess.run` semantics), an `execute` decision with outcome `block`
and code SG-RT-TIMEOUT is the final recorded decision, the session is
finalized, the exit code is 1, and no `complete` decision is recorded. -/
theorem timeout_handling :
    ∀ (I : RunInputs) (t : Int), reachesExecute I = true →
      I.execResult = ExecOutcome.timeout t →
      runExitCode (runCommand I) = 1 ∧
      runKilledChild (runCommand I) = true ∧
      (asSession (runCommand I)).finalized = true ∧
      (runDecisions (runCommand I)).getLast? = some ⟨"execute", "block",
        "SG-RT-TIMEOUT", "high",
        "Wrapped command timed out after " ++ intToStr t ++ "s", []⟩ ∧
      "complete" ∉ runPhases (runCommand I) := by
  intro I t hre hex
  obtain ⟨parent, ds, heq⟩ := runCommand_to_exec I hre
  have hres : runCommand I = RunResult.session ⟨parent,
      (ds ++ [executeStartDecision I (extractWrappedCommand I.args)]) ++
        [⟨"execute", "block", "SG-RT-TIMEOUT", "high",
          "Wrapped command timed out after " ++ intToStr t ++ "s", []⟩],
      lineageEdgesFor parent I.sessionId ((extractWrappedCommand I.args).headD ""),
      true, 1, "", "", true⟩ := by
    rw [heq]
    simp only [runExec, hex]
  refine ⟨by rw [hres]; rfl, by rw [hres]; rfl, by rw [hres]; rfl, ?_, ?_⟩
  · rw [hres]
    exact getLast?_append_singleton _ _
  · intro hmem
    simp only [runPhases] at hmem
    rcases List.mem_map.mp hmem with ⟨d, hd, hph⟩
    rcases runCommand_mem I d hd with h | h | h | h | h | h | h | h | h
    · rw [h] at hph
      simp at hph
    · rw [h] at hph
      simp at hph
    · rw [h] at hph
      simp at hph
    · rw [h] at hph
      simp at hph
    · rw [h] at hph
      simp at hph
    · rw [h] at hph
      simp at hph
    · rw [h] at hph
      simp at hph
    · rw [h] at hph
      exact (show ("tool_output" : String) ≠ "complete" by decide) hph
    · rcases h with ⟨rc, o2, e2, hex2, _⟩
      rw [hex] at hex2
      exact ExecOutcome.noConfusion hex2

/-- Inputs for a native output scan that sanitizes. -/
def WitScanOutput : ScanOutputInputs :=
  ⟨.dev, some "sanitize", "sess-3", scanSanitize⟩

/-! ## Lineage graph risk analytics (`dag risk`)

`analyze_lineage_artifact` and `risk_summary` live in
`skillgate.core.gateway`, which is not part of the source tree; the
metrics below are modelled from spec §4.7.  The threshold gating is
embedded from `dag.py` (`dag_risk_command`). -/

/-- Modelled from the spec: a `LineageEdge` as the analytics see it — the
parent→child link plus the tool and its capability classes observed on
the edge (network/credential classes drive the lateral-movement and
secret-exposure counts). -/
structure LineageEdgeM where
  parent : String
  child : String
  tool : String
  toolClasses : List String
deriving Repr, DecidableEq

/-- Modelled from the spec: one phase decision of a session in the
subtree, reduced to the fields the risk metrics read. -/
structure DecisionM where
  sessionId : String
  severity : String
  outcome : String
deriving Repr, DecidableEq

/-- One breadth-first expansion step of the reachable-node set. -/
def reachStep (edges : List LineageEdgeM) (S : Finset String) : Finset String :=
  S ∪ (edges.filterMap fun e =>
    if e.parent ∈ S then some e.child else none).toFinset

/-- `n`-step reachability from the root. -/
def reachN (root : String) (edges : List LineageEdgeM) : Nat → Finset String
  | 0 => {root}
  | n + 1 => reachStep edges (reachN root edges n)

/-- Modelled from the spec: the set of nodes reachable from the root
(`edges.length` expansion steps reach every reachable node). -/
def reachSet (root : String) (edges : List LineageEdgeM) : Finset String :=
  reachN root edges edges.length

/-- Modelled from the spec: blast radius = count of distinct nodes
reachable from the root, root inclusive. -/
def blastRadius (root : String) (edges : List LineageEdgeM) : Nat :=
  (reachSet root edges).card

/-- Edges inside the subtree rooted at `root`. -/
def edgeCount (root : String) (edges : List LineageEdgeM) : Nat :=
  edges.countP fun e => decide (e.parent ∈ reachSet root edges)

def isHighRiskSeverity (s : String) : Bool :=
  s == "high" || s == "critical"

/-- Decisions of subtree sessions whose severity is high/critical. -/
def highRiskDecisions (root : String) (edges : List LineageEdgeM)
    (decisions : List DecisionM) : Nat :=
  decisions.countP fun d =>
    decide (d.sessionId ∈ reachSet root edges) && isHighRiskSeverity d.severity

/-- Decisions of subtree sessions whose outcome is block. -/
def blockedDecisions (root : String) (edges : List LineageEdgeM)
    (decisions : List DecisionM) : Nat :=
  decisions.countP fun d =>
    decide (d.sessionId ∈ reachSet root edges) && (d.outcome == "block")

/-- Subtree edges whose tool is network-class. -/
def lateralMovementPotential (root : String) (edges : List LineageEdgeM) : Nat :=
  edges.countP fun e =>
    decide (e.parent ∈ reachSet root edges) && e.toolClasses.contains "network"

/-- Subtree edges whose tool is credential-class. -/
def secretExposureRadius (root : String) (edges : List LineageEdgeM) : Nat :=
  edges.countP fun e =>
    decide (e.parent ∈ reachSet root edges) && e.toolClasses.contains "credential"

/-- Longest simple root-to-leaf path length, by fuel-bounded search. -/
def depthFrom (edges : List LineageEdgeM) : Nat → List String → String → Nat
  | 0, _, _ => 0
  | fuel + 1, visited, cur =>
    (edges.filterMap fun e =>
      if e.parent = cur ∧ ¬ e.child ∈ visited then
        some (1 + depthFrom edges fuel (e.child :: visited) e.child)
      else none).foldr max 0

/-- Modelled from the spec: max depth = longest root-to-leaf path. -/
def maxDepth (root : String) (edges : List LineageEdgeM) : Nat :=
  depthFrom edges (edges.length + 1) [root] root

/-- Modelled from the spec: `risk_score`, a deterministic
monotonically-nondecreasing weighted sum of the subtree metrics. -/
def riskScore (root : String) (edges : List LineageEdgeM)
    (decisions : List DecisionM) : Nat :=
  blastRadius root edges + edgeCount root edges +
    5 * highRiskDecisions root edges decisions +
    3 * blockedDecisions root edges decisions +
    2 * lateralMovementPotential root edges +
    2 * secretExposureRadius root edges

/-- The `risk_summary` record printed and gated by `dag risk`. -/
structure RiskSummary where
  sessionId : String
  nodeCount : Nat
  edgeCount : Nat
  maxDepth : Nat
  blastRadius : Nat
  highRiskDecisions : Nat
  highRiskPathCount : Nat
  lateralMovementPotential : Nat
  secretExposureRadius : Nat
  blockedDecisions : Nat
  riskScore : Nat
deriving Repr, DecidableEq

/-- `dag_risk_command` (`dag.py`) exit-code behaviour: entitlement
failure → 1, missing artifact → 3, failed verification without
`--allow-unsigned` → 1, an exceeded `--max-depth` or `--max-risk-score`
threshold → 1, otherwise 0. -/
def dagRiskExitCode (entOk artifactExists verified allowUnsigned : Bool)
    (summary : RiskSummary) (maxDepthThr maxRiskThr : Option Int) : Nat :=
  if !entOk then 1
  else if !artifactExists then 3
  else if !verified && !allowUnsigned then 1
  else if (match maxDepthThr with
           | some m => decide ((summary.maxDepth : Int) > m)
           | none => false) then 1
  else if (match maxRiskThr with
           | some m => decide ((summary.riskScore : Int) > m)
           | none => false) then 1
  else 0

/-- `run` invocation in prod with provenance satisfied, BOM approved, and
no approval file supplied. -/
def WitRunApproval : RunInputs :=
  { WitRun with env := .prod, skillId := some "skill", skillHash := some "hash",
                scanAttestation := some "att", requiredReviewers := 2 }

/-- `run` invocation denied at precheck. -/
def WitRunDenied : RunInputs :=
  { WitRun with precheck := precheckDeny }

/-- `run` invocation whose wrapped command times out. -/
def WitRunTimeout : RunInputs :=
  { WitRun with execResult := ExecOutcome.timeout 120 }

/-- Closed instance of C7 at a concrete timed-out invocation. -/
theorem timeout_handling_witness :
    reachesExecute WitRunTimeout = true ∧
    WitRunTimeout.execResult = ExecOutcome.timeout 120 ∧
    (runExitCode (runCommand WitRunTimeout) = 1 ∧
     runKilledChild (runCommand WitRunTimeout) = true ∧
     (asSession (runCommand WitRunTimeout)).finalized = true ∧
     (runDecisions (runCommand WitRunTimeout)).getLast? = some ⟨"execute", "block",
       "SG-RT-TIMEOUT", "high",
       "Wrapped command timed out after " ++ intToStr 120 ++ "s", []⟩ ∧
     "complete" ∉ runPhases (runCommand WitRunTimeout)) :=
  ⟨by decide, rfl, timeout_handling WitRunTimeout 120 (by decide) rfl⟩

/-- C9.  Sanitized-output substitution: when the TOP guard resolves to
SANITIZE with a sanitized text, the gateway emits the sanitized text in
place of the wrapped command's stdout and emits nothing on stderr — the
captured stderr is replaced by the empty string. -/
theorem sanitize_output_replacement :
    ∀ (I : RunInputs) (rc : Int) (outS errS t : String),
      reachesExecute I = true →
      I.execResult = ExecOutcome.completed rc outS errS →
      I.enableTopGuard = true →
      I.topScan.outcome = TopOutcome.sanitize →
      I.topScan.sanitizedText = some t →
      runStdoutOut (runCommand I) = t ∧ runStderrOut (runCommand I) = "" := by
  intro I rc outS errS t hre hex hg hsc hst
  obtain ⟨parent, ds, heq⟩ := runCommand_to_exec I hre
  have hres : runCommand I = runComplete parent
      ((ds ++ [executeStartDecision I (extractWrappedCommand I.args)]) ++
        [toolOutputDecision I.topScan "TOP guard decision on wrapped command output."])
      (lineageEdgesFor parent I.sessionId ((extractWrappedCommand I.args).headD ""))
      rc t "" := by
    rw [heq]
    simp only [runExec, hex, runTop, hg, hsc, hst, if_true]
  rw [hres]
  exact ⟨rfl, rfl⟩

/-- `run` invocation whose output triggers sanitization. -/
def WitRunSanitize : RunInputs :=
  { WitRun with execResult := ExecOutcome.completed 0 "secret AKIA" "noise",
                topScan := scanSanitize }

/-- Closed instance of C9 at a concrete sanitizing invocation. -/
theorem sanitize_output_replacement_witness :
    reachesExecute WitRunSanitize = true ∧
    WitRunSanitize.execResult = ExecOutcome.completed 0 "secret AKIA" "noise" ∧
    WitRunSanitize.enableTopGuard = true ∧
    WitRunSanitize.topScan.outcome = TopOutcome.sanitize ∧
    WitRunSanitize.topScan.sanitizedText = some "[REDACTED]" ∧
    (runStdoutOut (runCommand WitRunSanitize) = "[REDACTED]" ∧
     runStderrOut (runCommand WitRunSanitize) = "") :=
  ⟨by decide, rfl, rfl, rfl, rfl,
   sanitize_output_replacement WitRunSanitize 0 "secret AKIA" "noise" "[REDACTED]"
     (by decide) rfl rfl rfl rfl⟩

/-- C5 (amended).  Complete-phase recording: any recorded `complete`
decision reflects the wrapped process's exit code — outcome `allow` when
it is 0 and `warn` otherwise, never `block`; and a `complete` decision is
recorded (as the final decision) in every invocation that is not halted
earlier, i.e. whenever all policy gates allow, execution completes, and
the TOP guard does not block.  (The unconditional "always recorded" of
the original claim fails: a run blocked at any earlier phase finalizes
without a `complete` decision.) -/
theorem complete_phase_recording :
    (∀ (I : RunInputs) (r : SessionResult), runCommand I = RunResult.session r →
      ∀ d ∈ r.decisions, d.phase = "complete" →
        d.outcome ≠ "block" ∧
        ∃ rc outS errS, I.execResult = ExecOutcome.completed rc outS errS ∧
          d.outcome = (if rc = 0 then "allow" else "warn")) ∧
    (∀ (I : RunInputs) (rc : Int) (outS errS : String),
      reachesExecute I = true →
      I.execResult = ExecOutcome.completed rc outS errS →
      (I.enableTopGuard = true → I.topScan.outcome ≠ TopOutcome.block) →
      (runDecisions (runCommand I)).getLast? = some (completeDecision rc)) := by
  constructor
  · intro I r hE d hd hph
    have hd' : d ∈ runDecisions (runCommand I) := by
      rw [hE]
      exact hd
    rcases runCommand_mem I d hd' with h | h | h | h | h | h | h | h | h
    · rw [h] at hph
      simp at hph
    · rw [h] at hph
      simp at hph
    · rw [h] at hph
      simp at hph
    · rw [h] at hph
      simp at hph
    · rw [h] at hph
      simp at hph
    · rw [h] at hph
      simp at hph
    · rw [h] at hph
      simp at hph
    · rw [h] at hph
      exact absurd hph (show ("tool_output" : String) ≠ "complete" by decide)
    · rcases h with ⟨rc, o2, e2, hex, hceq⟩
      rw [hceq]
      constructor
      · by_cases hrc : rc = 0 <;> simp [completeDecision, hrc]
      · exact ⟨rc, o2, e2, hex, rfl⟩
  · intro I rc outS errS hre hex htop
    obtain ⟨parent, ds, heq⟩ := runCommand_to_exec I hre
    rw [heq]
    rw [show runExec I parent ds
      (lineageEdgesFor parent I.sessionId ((extractWrappedCommand I.args).headD ""))
      (extractWrappedCommand I.args) = runTop I parent
        (ds ++ [executeStartDecision I (extractWrappedCommand I.args)])
        (lineageEdgesFor parent I.sessionId ((extractWrappedCommand I.args).headD ""))
        rc outS errS from by simp only [runExec, hex]]
    exact runTop_last _ _ _ _ _ _ _ htop

/-- Closed instance of C5 (amended): the benign run records `complete`
last, with outcome `allow` for exit code 0 and an execution witness. -/
theorem complete_phase_recording_witness :
    (runDecisions (runCommand WitRun)).getLast? = some (completeDecision 0) ∧
    (completeDecision 0).outcome ≠ "block" ∧
    ∃ rc outS errS, WitRun.execResult = ExecOutcome.completed rc outS errS ∧
      (completeDecision 0).outcome = (if rc = 0 then "allow" else "warn") := by
  have hlast := complete_phase_recording.2 WitRun 0 "hello" "" (by decide) rfl
    (fun _ => by decide)
  have hmem : completeDecision 0 ∈ runDecisions (runCommand WitRun) := by
    rcases List.mem_getLast?_eq_getLast (Option.mem_def.mpr hlast) with ⟨hne, hEq⟩
    rw [hEq]
    exact List.getLast_mem hne
  have h2 := complete_phase_recording.1 WitRun (asSession (runCommand WitRun)) rfl
    (completeDecision 0) hmem rfl
  exact ⟨hlast, h2.1, h2.2⟩

/-- Counterexample to C5 as stated: a run blocked at `precheck` finalizes
with `precheck` as its only recorded phase — no `complete` decision. -/
theorem complete_phase_counterexample :
    runPhases (runCommand WitRunDenied) = ["precheck"] ∧
    "complete" ∉ runPhases (runCommand WitRunDenied) := by
  decide

/-- C6.  In both the `run` pipeline and the `gateway scan-output` command,
the recorded `tool_output` decision's metadata consists of the single key
`matched_patterns` — nothing in the decision metadata records whether an
operator `--top-outcome` override forced the outcome, so an override is
indistinguishable in the metadata from an organic detection.  (This
refutes the claim and contradicts spec §4.6, which requires the override
to be recorded in the decision metadata.) -/
theorem top_override_unrecorded :
    (∀ (I : RunInputs) (d : Decision), d ∈ runDecisions (runCommand I) →
      d.phase = "tool_output" → d.metadata.map Prod.fst = ["matched_patterns"]) ∧
    (∀ (I : ScanOutputInputs) (d : Decision), d ∈ runDecisions (gatewayScanOutput I) →
      d.phase = "tool_output" → d.metadata.map Prod.fst = ["matched_patterns"]) := by
  constructor
  · intro I d hd hph
    rcases runCommand_mem I d hd with h | h | h | h | h | h | h | h | h
    · rw [h] at hph
      simp at hph
    · rw [h] at hph
      simp at hph
    · rw [h] at hph
      simp at hph
    · rw [h] at hph
      simp at hph
    · rw [h] at hph
      simp at hph
    · rw [h] at hph
      simp at hph
    · rw [h] at hph
      simp at hph
    · rw [h]
      rfl
    · rcases h with ⟨rc, o2, e2, _, hceq⟩
      rw [hceq] at hph
      exact absurd hph (show ("complete" : String) ≠ "tool_output" by decide)
  · intro I d hd hph
    rcases List.mem_singleton.mp hd with rfl
    rfl

/-- Closed instance of C6's theorem at a concrete sanitizing scan. -/
theorem top_override_unrecorded_witness :
    toolOutputDecision scanSanitize "Native output scan decision." ∈
      runDecisions (gatewayScanOutput WitScanOutput) ∧
    (toolOutputDecision scanSanitize "Native output scan decision.").phase =
      "tool_output" ∧
    (toolOutputDecision scanSanitize "Native output scan decision.").metadata.map
      Prod.fst = ["matched_patterns"] :=
  ⟨List.mem_singleton.mpr rfl, rfl,
   top_override_unrecorded.2 WitScanOutput _ (List.mem_singleton.mpr rfl) rfl⟩

/-- C10.  Reviewer-quorum environment parsing: `_parse_nonnegative_int_env`
returns 0 (never raises) for every empty, unparsable, zero or negative
value of SKILLGATE_APPROVAL_REQUIRED_REVIEWERS; and the approval gate of
the run pipeline triggers exactly when
`max(--required-reviewers, parsed value) > 0` — so a malformed value
silently contributes no quorum requirement. -/
theorem reviewer_quorum_env_parsing :
    (∀ s : String,
      (pyStrip s = "" ∨ pyParseInt (pyStrip s) = none ∨
        ∀ v, pyParseInt (pyStrip s) = some v → v ≤ 0) →
      parseNonnegativeIntEnv (some s) = 0) ∧
    (∀ I : RunInputs,
      (extractWrappedCommand I.args).isEmpty = false →
      I.precheck.allowed = true →
      requiresProvenance I.env = true →
      optFalsy I.skillId = false →
      optFalsy I.skillHash = false →
      optFalsy I.scanAttestation = false →
      I.bom.allowed = true →
      optFalsy I.approvalFile = true →
      ∀ parent, resolveParent I.envScopeToken I.envScopePublicKey I.tokenVerification =
        Except.ok parent →
      (("approval" ∈ runPhases (runCommand I)) ↔
        0 < max I.requiredReviewers (parseNonnegativeIntEnv I.envApprovalReviewers))) := by
  constructor
  · intro s hyp
    by_cases hemp : (pyStrip s).isEmpty = true
    · simp [parseNonnegativeIntEnv, hemp]
    · rcases hyp with h | h | h
      · exfalso
        apply hemp
        rw [h]
        rfl
      · simp [parseNonnegativeIntEnv, hemp, h]
      · cases hv : pyParseInt (pyStrip s) with
        | none => simp [parseNonnegativeIntEnv, hemp, hv]
        | some v =>
          have hv0 := h v hv
          simp only [parseNonnegativeIntEnv, Option.getD, hemp, Bool.false_eq_true,
            if_false, hv]
          rw [if_neg (by omega)]
  · intro I hw hpre hreq hsid hsh hat hbom haf parent hrp
    have hprovP : ¬(requiresProvenance I.env = true ∧
        (optFalsy I.skillId = true ∨ optFalsy I.skillHash = true ∨
          optFalsy I.scanAttestation = true)) := by
      rintro ⟨_, h2⟩
      rcases h2 with h | h | h
      · rw [hsid] at h
        simp at h
      · rw [hsh] at h
        simp at h
      · rw [hat] at h
        simp at h
    have hstep2 : runCommand I = runApproval I parent [⟨"precheck",
        if I.precheck.allowed = true then "allow" else "block",
        I.precheck.code, I.precheck.severity, I.precheck.reason,
        [("command", Json.arr ((extractWrappedCommand I.args).map Json.str)),
         ("command_classes", Json.arr (I.precheck.commandClasses.map Json.str))]⟩,
        ⟨"bom_gate", if I.bom.allowed = true then "allow" else "block",
          I.bom.code, if I.bom.allowed = true then "low" else "critical",
          I.bom.reason,
          [("skill_id", Json.str (I.skillId.getD "")),
           ("warning", match I.bom.warning with
             | some w => Json.str w
             | none => Json.null)]⟩]
        (extractWrappedCommand I.args) := by
      simp only [runCommand, hw, Bool.false_eq_true, if_false, hrp, hpre, if_true]
      rw [if_neg hprovP, if_neg (by simp [hsid]), if_pos hbom]
    by_cases hm : 0 < max I.requiredReviewers
        (parseNonnegativeIntEnv I.envApprovalReviewers)
    · have hres : runCommand I = RunResult.session ⟨parent, [⟨"precheck",
          if I.precheck.allowed = true then "allow" else "block",
          I.precheck.code, I.precheck.severity, I.precheck.reason,
          [("command", Json.arr ((extractWrappedCommand I.args).map Json.str)),
           ("command_classes", Json.arr (I.precheck.commandClasses.map Json.str))]⟩,
          ⟨"bom_gate", if I.bom.allowed = true then "allow" else "block",
            I.bom.code, if I.bom.allowed = true then "low" else "critical",
            I.bom.reason,
            [("skill_id", Json.str (I.skillId.getD "")),
             ("warning", match I.bom.warning with
               | some w => Json.str w
               | none => Json.null)]⟩] ++
          [⟨"approval", "block", "SG-RT-APPROVAL-001", "high",
            "Approval file required but missing.", []⟩], [], true, 1, "", "",
          false⟩ := by
        rw [hstep2]
        simp only [runApproval, hreq, hm, and_self, if_true, haf]
      constructor
      · intro _
        exact hm
      · intro _
        rw [hres]
        simp [runPhases, runDecisions]
    · have hcondn : ¬(requiresProvenance I.env = true ∧
          0 < max I.requiredReviewers (parseNonnegativeIntEnv I.envApprovalReviewers)) :=
        fun hc => hm hc.2
      have hres : runCommand I = runReputation I parent [⟨"precheck",
          if I.precheck.allowed = true then "allow" else "block",
          I.precheck.code, I.precheck.severity, I.precheck.reason,
          [("command", Json.arr ((extractWrappedCommand I.args).map Json.str)),
           ("command_classes", Json.arr (I.precheck.commandClasses.map Json.str))]⟩,
          ⟨"bom_gate", if I.bom.allowed = true then "allow" else "block",
            I.bom.code, if I.bom.allowed = true then "low" else "critical",
            I.bom.reason,
            [("skill_id", Json.str (I.skillId.getD "")),
             ("warning", match I.bom.warning with
               | some w => Json.str w
               | none => Json.null)]⟩]
          (extractWrappedCommand I.args) := by
        rw [hstep2]
        simp only [runApproval]
        rw [if_neg hcondn]
      constructor
      · intro hmem
        exfalso
        rw [hres] at hmem
        simp only [runPhases] at hmem
        rcases List.mem_map.mp hmem with ⟨d, hd, hph⟩
        rcases runReputation_mem I parent _ _ d hd with h | h | h | h | h | h
        · rcases List.mem_cons.mp h with rfl | h2
          · exact (show ("precheck" : String) ≠ "approval" by decide) hph
          · rcases List.mem_singleton.mp h2 with rfl
            exact (show ("bom_gate" : String) ≠ "approval" by decide) hph
        · rw [h] at hph
          simp at hph
        · rw [h] at hph
          simp at hph
        · rw [h] at hph
          simp at hph
        · rw [h] at hph
          exact (show ("tool_output" : String) ≠ "approval" by decide) hph
        · rcases h with ⟨rc, o2, e2, _, hceq⟩
          rw [hceq] at hph
          exact (show ("complete" : String) ≠ "approval" by decide) hph
      · intro h
        exact absurd h hm

/-- Closed instance of C10: the parser at `" -3 "`, and the approval gate
triggering at a concrete prod invocation with quorum 2 and no file. -/
theorem reviewer_quorum_env_parsing_witness :
    ((pyStrip " -3 " = "" ∨ pyParseInt (pyStrip " -3 ") = none ∨
       ∀ v, pyParseInt (pyStrip " -3 ") = some v → v ≤ 0) ∧
     parseNonnegativeIntEnv (some " -3 ") = 0) ∧
    ((extractWrappedCommand WitRunApproval.args).isEmpty = false ∧
     requiresProvenance WitRunApproval.env = true ∧
     optFalsy WitRunApproval.approvalFile = true ∧
     (("approval" ∈ runPhases (runCommand WitRunApproval)) ↔
       0 < max WitRunApproval.requiredReviewers
         (parseNonnegativeIntEnv WitRunApproval.envApprovalReviewers))) := by
  have hv : ∀ v, pyParseInt (pyStrip " -3 ") = some v → v ≤ 0 := by
    intro v hveq
    rw [show pyParseInt (pyStrip " -3 ") = some (-3) from rfl] at hveq
    injection hveq with h
    omega
  refine ⟨⟨Or.inr (Or.inr hv), reviewer_quorum_env_parsing.1 " -3 "
    (Or.inr (Or.inr hv))⟩, rfl, rfl, rfl, ?_⟩
  exact reviewer_quorum_env_parsing.2 WitRunApproval rfl rfl rfl rfl rfl rfl rfl rfl
    none rfl

theorem mem_reachStep {edges : List LineageEdgeM} {S : Finset String} {x : String} :
    x ∈ reachStep edges S ↔
      x ∈ S ∨ ∃ e ∈ edges, e.parent ∈ S ∧ e.child = x := by
  simp only [reachStep, Finset.mem_union, List.mem_toFinset, List.mem_filterMap]
  refine or_congr Iff.rfl ⟨?_, ?_⟩
  · rintro ⟨e, he, hif⟩
    by_cases hp : e.parent ∈ S
    · rw [if_pos hp] at hif
      exact ⟨e, he, hp, Option.some.inj hif⟩
    · rw [if_neg hp] at hif
      exact absurd hif (by simp)
  · rintro ⟨e, he, hp, hc⟩
    exact ⟨e, he, by rw [if_pos hp, hc]⟩

theorem subset_reachStep (edges : List LineageEdgeM) (S : Finset String) :
    S ⊆ reachStep edges S :=
  fun _ hx => mem_reachStep.mpr (Or.inl hx)

theorem reachStep_mono {edges edges' : List LineageEdgeM} {S S' : Finset String}
    (hE : ∀ e ∈ edges, e ∈ edges') (hS : S ⊆ S') :
    reachStep edges S ⊆ reachStep edges' S' := by
  intro x hx
  rcases mem_reachStep.mp hx with h | ⟨e, he, hp, hc⟩
  · exact mem_reachStep.mpr (Or.inl (hS h))
  · exact mem_reachStep.mpr (Or.inr ⟨e, hE e he, hS hp, hc⟩)

theorem reachN_mono_fuel (root : String) (edges : List LineageEdgeM) {n m : Nat}
    (h : n ≤ m) : reachN root edges n ⊆ reachN root edges m := by
  induction m with
  | zero =>
    rw [Nat.le_zero.mp h]
  | succ k ih =>
    by_cases hEq : n = k + 1
    · rw [hEq]
    · have hle : n ≤ k := by omega
      exact (ih hle).trans (subset_reachStep edges (reachN root edges k))

theorem reachN_mono_edges {edges edges' : List LineageEdgeM}
    (hE : ∀ e ∈ edges, e ∈ edges') (root : String) :
    ∀ n, reachN root edges n ⊆ reachN root edges' n := by
  intro n
  induction n with
  | zero => exact fun x hx => hx
  | succ k ih => exact reachStep_mono hE ih

theorem root_mem_reachN (root : String) (edges : List LineageEdgeM) (n : Nat) :
    root ∈ reachN root edges n := by
  induction n with
  | zero => exact Finset.mem_singleton_self root
  | succ k ih => exact subset_reachStep edges (reachN root edges k) ih

theorem reachSet_mono_cons (root : String) (e : LineageEdgeM)
    (edges : List LineageEdgeM) :
    reachSet root edges ⊆ reachSet root (e :: edges) :=
  (reachN_mono_edges (fun x hx => List.mem_cons_of_mem e hx) root edges.length).trans
    (reachN_mono_fuel root (e :: edges) (by simp))

theorem countP_le_countP_cons {α : Type} (a : α) (l : List α) (p : α → Bool) :
    l.countP p ≤ (a :: l).countP p := by
  rw [List.countP_cons]
  exact Nat.le_add_right _ _

theorem countP_mono_reach {α : Type} (l : List α) (p q : α → Bool)
    (h : ∀ a ∈ l, p a = true → q a = true) : l.countP p ≤ l.countP q := by
  induction l with
  | nil => exact Nat.le_refl _
  | cons a l ih =>
    rw [List.countP_cons, List.countP_cons]
    have h1 : l.countP p ≤ l.countP q := ih fun x hx => h x (List.mem_cons_of_mem a hx)
    by_cases hp : p a = true
    · have hq := h a (List.mem_cons_self a l) hp
      rw [hp, hq]
      exact Nat.add_le_add h1 (by decide)
    · have hp' : p a = false := by
        cases hpa : p a
        · rfl
        · exact absurd hpa hp
      rw [hp']
      by_cases hq : q a = true
      · rw [hq]
        exact Nat.add_le_add h1 (by decide)
      · have hq' : q a = false := by
          cases hqa : q a
          · rfl
          · exact absurd hqa hq
        rw [hq']
        exact Nat.add_le_add h1 (by decide)

/-- C8.  Lineage risk analytics (metrics modelled from spec 4.7, gating
embedded from `dag.py`): `risk_score` is deterministic and never
decreases when an edge (hence any node it brings into the subtree) or a
decision is added to the lineage data; `blast_radius(root) >= 1` always
(the root counts itself); and `dag risk` exits non-zero whenever a
caller-supplied `--max-depth` or `--max-risk-score` threshold is
exceeded. -/
theorem lineage_risk_monotone :
    (∀ (root : String) (e : LineageEdgeM) (edges : List LineageEdgeM)
        (decisions : List DecisionM),
      riskScore root edges decisions ≤ riskScore root (e :: edges) decisions) ∧
    (∀ (root : String) (edges : List LineageEdgeM) (d : DecisionM)
        (decisions : List DecisionM),
      riskScore root edges decisions ≤ riskScore root edges (d :: decisions)) ∧
    (∀ (root : String) (edges : List LineageEdgeM), 1 ≤ blastRadius root edges) ∧
    (∀ (entOk artifactExists verified allowUnsigned : Bool) (s : RiskSummary)
        (maxDepthThr maxRiskThr : Option Int),
      entOk = true → artifactExists = true →
      (verified = true ∨ allowUnsigned = true) →
      ((∃ m, maxDepthThr = some m ∧ (s.maxDepth : Int) > m) ∨
       (∃ m, maxRiskThr = some m ∧ (s.riskScore : Int) > m)) →
      dagRiskExitCode entOk artifactExists verified allowUnsigned s
        maxDepthThr maxRiskThr ≠ 0) := by
  refine ⟨?_, ?_, ?_, ?_⟩
  · intro root e edges decisions
    have hsub := reachSet_mono_cons root e edges
    have hblast : blastRadius root edges ≤ blastRadius root (e :: edges) :=
      Finset.card_le_card hsub
    have hedge : edgeCount root edges ≤ edgeCount root (e :: edges) := by
      simp only [edgeCount]
      refine Nat.le_trans ?_ (countP_le_countP_cons e edges _)
      refine countP_mono_reach edges _ _ fun a _ ha => ?_
      simp only [decide_eq_true_eq] at ha ⊢
      exact hsub ha
    have hhigh : highRiskDecisions root edges decisions ≤
        highRiskDecisions root (e :: edges) decisions := by
      simp only [highRiskDecisions]
      refine countP_mono_reach decisions _ _ fun a _ ha => ?_
      simp only [Bool.and_eq_true, decide_eq_true_eq] at ha ⊢
      exact ⟨hsub ha.1, ha.2⟩
    have hblk : blockedDecisions root edges decisions ≤
        blockedDecisions root (e :: edges) decisions := by
      simp only [blockedDecisions]
      refine countP_mono_reach decisions _ _ fun a _ ha => ?_
      simp only [Bool.and_eq_true, decide_eq_true_eq] at ha ⊢
      exact ⟨hsub ha.1, ha.2⟩
    have hlat : lateralMovementPotential root edges ≤
        lateralMovementPotential root (e :: edges) := by
      simp only [lateralMovementPotential]
      refine Nat.le_trans ?_ (countP_le_countP_cons e edges _)
      refine countP_mono_reach edges _ _ fun a _ ha => ?_
      simp only [Bool.and_eq_true, decide_eq_true_eq] at ha ⊢
      exact ⟨hsub ha.1, ha.2⟩
    have hsec : secretExposureRadius root edges ≤
        secretExposureRadius root (e :: edges) := by
      simp only [secretExposureRadius]
      refine Nat.le_trans ?_ (countP_le_countP_cons e edges _)
      refine countP_mono_reach edges _ _ fun a _ ha => ?_
      simp only [Bool.and_eq_true, decide_eq_true_eq] at ha ⊢
      exact ⟨hsub ha.1, ha.2⟩
    simp only [riskScore]
    omega
  · intro root edges d decisions
    have hhigh : highRiskDecisions root edges decisions ≤
        highRiskDecisions root edges (d :: decisions) := by
      simp only [highRiskDecisions]
      exact countP_le_countP_cons d decisions _
    have hblk : blockedDecisions root edges decisions ≤
        blockedDecisions root edges (d :: decisions) := by
      simp only [blockedDecisions]
      exact countP_le_countP_cons d decisions _
    simp only [riskScore]
    omega
  · intro root edges
    exact Finset.card_pos.mpr ⟨root, root_mem_reachN root edges edges.length⟩
  · intro entOk artifactExists verified allowUnsigned s mD mR hent hex hver hthr
    have hva : (!verified && !allowUnsigned) = false := by
      rcases hver with h | h <;> rw [h] <;> simp
    rcases hthr with ⟨m, hm, hgt⟩ | ⟨m, hm, hgt⟩
    · subst hm
      simp [dagRiskExitCode, hent, hex, hva, hgt]
    · subst hm
      cases mD with
      | none => simp [dagRiskExitCode, hent, hex, hva, hgt]
      | some md =>
        by_cases hd : (s.maxDepth : Int) > md
        · simp [dagRiskExitCode, hent, hex, hva, hd]
        · simp [dagRiskExitCode, hent, hex, hva, hgt, hd]

/-- Closed instance of C8: monotonicity at a concrete one-edge graph,
blast radius at a root, and gating at an exceeded risk threshold. -/
theorem lineage_risk_monotone_witness :
    riskScore "r" [] [] ≤ riskScore "r" [⟨"r", "c", "curl", ["network"]⟩] [] ∧
    riskScore "r" [] [] ≤ riskScore "r" [] [⟨"r", "critical", "allow"⟩] ∧
    1 ≤ blastRadius "r" [] ∧
    (true = true ∧ (true = true ∨ false = true) ∧
     dagRiskExitCode true true true false
       ⟨"r", 2, 1, 1, 2, 1, 1, 1, 0, 0, 12⟩ none (some 5) ≠ 0) :=
  ⟨lineage_risk_monotone.1 "r" ⟨"r", "c", "curl", ["network"]⟩ [] [],
   lineage_risk_monotone.2.1 "r" [] ⟨"r", "critical", "allow"⟩ [],
   lineage_risk_monotone.2.2.1 "r" [],
   rfl, Or.inl rfl,
   lineage_risk_monotone.2.2.2 true true true false
     ⟨"r", 2, 1, 1, 2, 1, 1, 1, 0, 0, 12⟩ none (some 5) rfl rfl (Or.inl rfl)
     (Or.inr ⟨5, rfl, by decide⟩)⟩

end Skillgate
